import Mathlib

/-!
Verification of the account credential lifecycle engine of the
`antigravity-agent` repository (Rust sources under `src/src-tauri/src/`).

Rust strings are embedded as their UTF-8 byte lists (`List Nat`, each
element `< 256`); user-facing error messages are kept as Lean `String`s.
Third-party library primitives (Argon2 key derivation, XChaCha20-Poly1305
AEAD) are function parameters; the library guarantees the theorems rely on
appear as explicit hypotheses, discharged concretely in witness theorems.
-/

namespace AGA

/-- UTF-8 code units of an ASCII Lean string literal, as natural numbers. -/
def ascii (s : String) : List Nat := s.toList.map Char.toNat

/-! ### Base64 (standard alphabet, canonical padding)

Model of the `base64` crate's `STANDARD` engine used throughout
`account_manage_commands.rs` and `antigravity/account.rs`: encoding in
3-byte groups to the alphabet `A-Z a-z 0-9 + /` with `=` padding, and a
strict decoder that rejects non-alphabet symbols, lengths not a multiple
of four, interior padding, and non-zero trailing bits. -/

/-- Byte value of the base64 alphabet symbol with index `i` (0–63). -/
def b64char (i : Nat) : Nat :=
  if i < 26 then 65 + i
  else if i < 52 then 97 + (i - 26)
  else if i < 62 then 48 + (i - 52)
  else if i = 62 then 43
  else 47

/-- Alphabet index of byte `c`, `none` when `c` is not a base64 symbol. -/
def b64index (c : Nat) : Option Nat :=
  if 65 ≤ c ∧ c ≤ 90 then some (c - 65)
  else if 97 ≤ c ∧ c ≤ 122 then some (c - 97 + 26)
  else if 48 ≤ c ∧ c ≤ 57 then some (c - 48 + 52)
  else if c = 43 then some 62
  else if c = 47 then some 63
  else none

/-- Base64-encode a byte list (standard alphabet, with padding). -/
def b64encode : List Nat → List Nat
  | [] => []
  | [b0] => [b64char (b0 / 4), b64char (b0 % 4 * 16), 61, 61]
  | [b0, b1] =>
      [b64char (b0 / 4), b64char (b0 % 4 * 16 + b1 / 16), b64char (b1 % 16 * 4), 61]
  | b0 :: b1 :: b2 :: rest =>
      b64char (b0 / 4) :: b64char (b0 % 4 * 16 + b1 / 16) ::
        b64char (b1 % 16 * 4 + b2 / 64) :: b64char (b2 % 64) :: b64encode rest

/-- Strict base64 decode (canonical padding, no trailing bits). -/
def b64decode : List Nat → Option (List Nat)
  | [] => some []
  | c0 :: c1 :: c2 :: c3 :: rest =>
      match b64index c0, b64index c1 with
      | some i0, some i1 =>
          if c2 = 61 then
            if c3 = 61 ∧ rest = [] ∧ i1 % 16 = 0 then
              some [i0 * 4 + i1 / 16]
            else none
          else
            match b64index c2 with
            | some i2 =>
                if c3 = 61 then
                  if rest = [] ∧ i2 % 4 = 0 then
                    some [i0 * 4 + i1 / 16, i1 % 16 * 16 + i2 / 4]
                  else none
                else
                  match b64index c3 with
                  | some i3 =>
                      (b64decode rest).map
                        (fun tail => (i0 * 4 + i1 / 16) :: (i1 % 16 * 16 + i2 / 4) ::
                          (i2 % 4 * 64 + i3) :: tail)
                  | none => none
            | none => none
      | _, _ => none
  | _ => none

/-! ### UTF-8 validity

Byte-level model of Rust's `String::from_utf8` / `std::str::from_utf8`
success condition (RFC 3629 well-formedness, surrogates and overlong
forms rejected). A Rust `String` is exactly a valid UTF-8 byte sequence,
so strings flowing through the codec are represented by their bytes
guarded by this predicate. -/

/-- Is `b` a UTF-8 continuation byte (`10xxxxxx`)? -/
def utf8cont (b : Nat) : Bool := 128 ≤ b && b ≤ 191

/-- RFC 3629 well-formedness of a byte sequence. Lead bytes outside the
valid ranges (including 0x80–0xC1 and 0xF5–0xFF) fail on every path. -/
def validUtf8 : List Nat → Bool
  | [] => true
  | b :: rest =>
      if b < 128 then validUtf8 rest
      else match rest with
      | [] => false
      | c1 :: r1 =>
        if 194 ≤ b && b ≤ 223 then utf8cont c1 && validUtf8 r1
        else match r1 with
        | [] => false
        | c2 :: r2 =>
          if b = 224 then (160 ≤ c1 && c1 ≤ 191) && utf8cont c2 && validUtf8 r2
          else if (225 ≤ b && b ≤ 236) || (238 ≤ b && b ≤ 239) then
            utf8cont c1 && utf8cont c2 && validUtf8 r2
          else if b = 237 then (128 ≤ c1 && c1 ≤ 159) && utf8cont c2 && validUtf8 r2
          else match r2 with
          | [] => false
          | c3 :: r3 =>
            if b = 240 then
              (144 ≤ c1 && c1 ≤ 191) && utf8cont c2 && utf8cont c3 && validUtf8 r3
            else if 241 ≤ b && b ≤ 243 then
              utf8cont c1 && utf8cont c2 && utf8cont c3 && validUtf8 r3
            else if b = 244 then
              (128 ≤ c1 && c1 ≤ 143) && utf8cont c2 && utf8cont c3 && validUtf8 r3
            else false

/-! ### Cyclic XOR (legacy codec)

The legacy decrypt-only path of `decrypt_config_data` XORs the decoded
bytes against the password repeated cyclically
(`account_manage_commands.rs` lines 432–437). -/

/-- XOR `data` starting at position `i` against `pw` repeated cyclically. -/
def xorCycAux (pw : List Nat) : Nat → List Nat → List Nat
  | _, [] => []
  | i, b :: rest => (b ^^^ pw.getD (i % pw.length) 0) :: xorCycAux pw (i + 1) rest

/-- Byte-wise XOR of `data` against `pw` repeated cyclically. -/
def xorCyclic (data pw : List Nat) : List Nat := xorCycAux pw 0 data

/-! ### Token-level parsing helpers

Used to model `String::strip_prefix` and the fragment of `serde_json`
behaviour the envelope codec exercises. -/

/-- Consume the literal `lit` from the front of `input`
(`none` when `input` is shorter or differs); models `strip_prefix`. -/
def expectBytes : List Nat → List Nat → Option (List Nat)
  | [], input => some input
  | _ :: _, [] => none
  | t :: ts, c :: cs => if c = t then expectBytes ts cs else none

/-- Scan a (quote- and escape-free) JSON string body up to the closing
`"` (byte 34); models `serde_json`'s string scanning for the base64
payload fields, none of which can contain a quote or backslash. -/
def takeUntilQuote : List Nat → Option (List Nat × List Nat)
  | [] => none
  | c :: rest =>
      if c = 34 then some ([], rest)
      else (takeUntilQuote rest).map (fun p => (c :: p.1, p.2))

/-- Fuel-driven helper for `natDigits`; the fuel always suffices at the
call site, and the fuel-0 fallback agrees with the one-digit case. -/
def natDigitsAux : Nat → Nat → List Nat
  | 0, n => [48 + n % 10]
  | fuel + 1, n =>
      if n < 10 then [48 + n] else natDigitsAux fuel (n / 10) ++ [48 + n % 10]

/-- Decimal digit bytes of `n` (most-significant first); models the
decimal rendering `serde_json` uses for integer fields. -/
def natDigits (n : Nat) : List Nat := natDigitsAux n n

/-- Accumulating decimal parser: consume leading digit bytes. -/
def parseNatAux (acc : Nat) : List Nat → Nat × List Nat
  | [] => (acc, [])
  | c :: rest =>
      if 48 ≤ c ∧ c ≤ 57 then parseNatAux (acc * 10 + (c - 48)) rest
      else (acc, c :: rest)

/-- Parse a decimal number at the front of the input (at least one digit). -/
def parseNat : List Nat → Option (Nat × List Nat)
  | [] => none
  | c :: rest =>
      if 48 ≤ c ∧ c ≤ 57 then some (parseNatAux (c - 48) rest)
      else none

/-- Returns `true` when the input does not start with a decimal digit byte. -/
def headNotDigit : List Nat → Bool
  | [] => true
  | c :: _ => !(48 ≤ c && c ≤ 57)

/-! ### The versioned envelope payload

`encrypt_config_data` serializes the struct
`Payload { v, kdf, m_cost_kib, t_cost, p_cost, salt_b64, nonce_b64, ct_b64 }`
with `serde_json::to_string` (fields in declaration order, compact) and
`decrypt_config_data` parses it back with `serde_json::from_str`. The
parser below models `serde_json` on exactly the serialization this codec
itself emits (compact form, declaration field order, integer bounds of
`u8`/`u32`, quote-terminated string bodies — the base64 payloads can
contain neither quotes nor escapes). -/

structure Payload where
  v : Nat
  kdf : List Nat
  m_cost_kib : Nat
  t_cost : Nat
  p_cost : Nat
  salt_b64 : List Nat
  nonce_b64 : List Nat
  ct_b64 : List Nat
deriving DecidableEq

/-- Bytes of the five characters `{"v":` (123 is the opening brace). -/
def segV : List Nat := [123, 34, 118, 34, 58]

/-- Bytes of `,"kdf":"` -/
def segKdf : List Nat := [44, 34, 107, 100, 102, 34, 58, 34]

/-- Bytes of `,"m_cost_kib":` -/
def segM : List Nat := [44, 34, 109, 95, 99, 111, 115, 116, 95, 107, 105, 98, 34, 58]

/-- Bytes of `,"t_cost":` -/
def segT : List Nat := [44, 34, 116, 95, 99, 111, 115, 116, 34, 58]

/-- Bytes of `,"p_cost":` -/
def segP : List Nat := [44, 34, 112, 95, 99, 111, 115, 116, 34, 58]

/-- Bytes of `,"salt_b64":"` -/
def segSalt : List Nat := [44, 34, 115, 97, 108, 116, 95, 98, 54, 52, 34, 58, 34]

/-- Bytes of `,"nonce_b64":"` -/
def segNonce : List Nat := [44, 34, 110, 111, 110, 99, 101, 95, 98, 54, 52, 34, 58, 34]

/-- Bytes of `,"ct_b64":"` -/
def segCt : List Nat := [44, 34, 99, 116, 95, 98, 54, 52, 34, 58, 34]

/-- Byte of the closing brace `}` -/
def segEnd : List Nat := [125]

/-- Compact JSON serialization of a payload, exactly as
`serde_json::to_string` renders it (byte 34 is the quote). -/
def buildPayloadJson (p : Payload) : List Nat :=
  segV ++ (natDigits p.v ++ (segKdf ++ (p.kdf ++ (34 ::
    (segM ++ (natDigits p.m_cost_kib ++ (segT ++ (natDigits p.t_cost ++
      (segP ++ (natDigits p.p_cost ++ (segSalt ++ (p.salt_b64 ++ (34 ::
        (segNonce ++ (p.nonce_b64 ++ (34 ::
          (segCt ++ (p.ct_b64 ++ (34 :: segEnd)))))))))))))))))))

/-- Parse the compact envelope JSON back into a `Payload`
(models `serde_json::from_str` for `Payload` on this codec's output;
out-of-range `u8`/`u32` integers are rejected as serde rejects them). -/
def parsePayload (input : List Nat) : Option Payload :=
  match expectBytes segV input with
  | none => none
  | some r1 =>
    match parseNat r1 with
    | none => none
    | some (v, r2) =>
      if 255 < v then none else
      match expectBytes segKdf r2 with
      | none => none
      | some r3 =>
        match takeUntilQuote r3 with
        | none => none
        | some (kdf, r4) =>
          match expectBytes segM r4 with
          | none => none
          | some r5 =>
            match parseNat r5 with
            | none => none
            | some (m, r6) =>
              if 4294967296 ≤ m then none else
              match expectBytes segT r6 with
              | none => none
              | some r7 =>
                match parseNat r7 with
                | none => none
                | some (t, r8) =>
                  if 4294967296 ≤ t then none else
                  match expectBytes segP r8 with
                  | none => none
                  | some r9 =>
                    match parseNat r9 with
                    | none => none
                    | some (pc, r10) =>
                      if 4294967296 ≤ pc then none else
                      match expectBytes segSalt r10 with
                      | none => none
                      | some r11 =>
                        match takeUntilQuote r11 with
                        | none => none
                        | some (salt, r12) =>
                          match expectBytes segNonce r12 with
                          | none => none
                          | some r13 =>
                            match takeUntilQuote r13 with
                            | none => none
                            | some (nonce, r14) =>
                              match expectBytes segCt r14 with
                              | none => none
                              | some r15 =>
                                match takeUntilQuote r15 with
                                | none => none
                                | some (ct, r16) =>
                                  match expectBytes segEnd r16 with
                                  | none => none
                                  | some r17 =>
                                    if r17 = [] then
                                      some ⟨v, kdf, m, t, pc, salt, nonce, ct⟩
                                    else none

/-! ### The backup codec: `encrypt_config_data` / `decrypt_config_data`

From `commands/account_manage_commands.rs` lines 263–442. The Argon2id
key-derivation, the XChaCha20-Poly1305 AEAD, and the `argon2::Params`
validity check are third-party library functions, taken as parameters;
the `rand`-filled salt and nonce are explicit arguments. The in-memory
zeroization side effect (`zeroize`) has no observable effect on the
returned values and is not modelled. -/

/-- Password → salt → m_cost_kib → t_cost → p_cost → derived 32-byte key
(`Argon2::hash_password_into`; total, as the library succeeds for the
parameter ranges the codec admits). -/
def KdfFn : Type := List Nat → List Nat → Nat → Nat → Nat → List Nat

/-- Key → nonce → plaintext → ciphertext-with-tag (`XChaCha20Poly1305::encrypt`). -/
def AeadEncFn : Type := List Nat → List Nat → List Nat → List Nat

/-- Key → nonce → ciphertext → authenticated plaintext, `none` on
authentication failure (`XChaCha20Poly1305::decrypt`). -/
def AeadDecFn : Type := List Nat → List Nat → List Nat → Option (List Nat)

/-- Validity of `(m_cost, t_cost, p_cost)` for `argon2::Params::new`. -/
def ParamsOkFn : Type := Nat → Nat → Nat → Bool

/-- Bytes of the current-format marker `AGENC1:`. -/
def ENC_HEADER : List Nat := [65, 71, 69, 78, 67, 49, 58]

/-- Bytes of the KDF identifier `argon2id`. -/
def KDF_NAME : List Nat := [97, 114, 103, 111, 110, 50, 105, 100]

/-- Model of `encrypt_config_data` (lines 263–342): size and password
guards in source order, then Argon2id key derivation, AEAD encryption,
envelope serialization, base64, and the `AGENC1:` marker. -/
def encrypt_config_data (paramsOk : ParamsOkFn) (kdf : KdfFn) (aeadEnc : AeadEncFn)
    (salt nonce json_data password : List Nat) : Except String (List Nat) :=
  if 5242880 < json_data.length then .error "待加密数据过大"
  else if password = [] then .error "密码不能为空"
  else if password.length < 8 then .error "密码长度至少 8 位"
  else if 1024 < password.length then .error "密码长度过长"
  else if paramsOk 32768 3 1 = false then .error "加密参数初始化失败"
  else .ok (ENC_HEADER ++ b64encode (buildPayloadJson
    ⟨1, KDF_NAME, 32768, 3, 1, b64encode salt, b64encode nonce,
      b64encode (aeadEnc (kdf password salt 32768 3 1) nonce json_data)⟩))

/-- Legacy fall-back branch of `decrypt_config_data` (lines 428–441):
base64-decode the whole input, XOR cyclically against the password,
interpret as UTF-8. -/
def decryptLegacy (encrypted_data password : List Nat) : Except String (List Nat) :=
  match b64decode encrypted_data with
  | none => .error "Base64 解码失败"
  | some decoded =>
      if validUtf8 (xorCyclic decoded password) then .ok (xorCyclic decoded password)
      else .error "解密失败，数据可能已损坏"

/-- Current-format branch after envelope JSON parsing: version/KDF-name
check, base64 field decoding, salt/nonce length checks, `argon2::Params`
validation, key derivation and AEAD decryption (lines 388–425). -/
def decryptWithPayload (paramsOk : ParamsOkFn) (kdf : KdfFn) (aeadDec : AeadDecFn)
    (payload : Payload) (password : List Nat) : Except String (List Nat) :=
  if payload.v ≠ 1 ∨ payload.kdf ≠ KDF_NAME then .error "不支持的密文版本"
  else match b64decode payload.salt_b64 with
  | none => .error "密文格式无效"
  | some salt =>
    match b64decode payload.nonce_b64 with
    | none => .error "密文格式无效"
    | some nonce =>
      match b64decode payload.ct_b64 with
      | none => .error "密文格式无效"
      | some ciphertext =>
        if salt.length ≠ 16 ∨ nonce.length ≠ 24 then .error "密文格式无效"
        else if paramsOk payload.m_cost_kib payload.t_cost payload.p_cost = false then
          .error "密文参数无效"
        else
          match aeadDec (kdf password salt payload.m_cost_kib payload.t_cost
              payload.p_cost) nonce ciphertext with
          | none => .error "解密失败，密码错误或数据已损坏"
          | some plaintext =>
              if validUtf8 plaintext then .ok plaintext
              else .error "解密失败，数据可能已损坏"

/-- Current-format branch given the input minus the `AGENC1:` marker:
base64 envelope decode, UTF-8 check, JSON parse (lines 380–387). -/
def decryptEnvelope (paramsOk : ParamsOkFn) (kdf : KdfFn) (aeadDec : AeadDecFn)
    (rest password : List Nat) : Except String (List Nat) :=
  match b64decode rest with
  | none => .error "密文格式无效"
  | some json_bytes =>
      if validUtf8 json_bytes then
        match parsePayload json_bytes with
        | none => .error "密文格式无效"
        | some payload => decryptWithPayload paramsOk kdf aeadDec payload password
      else .error "密文格式无效"

/-- Body of `decrypt_config_data` after the password guards: dispatch on
the `AGENC1:` marker between the current-format branch and the legacy
XOR fall-back. -/
def decryptCore (paramsOk : ParamsOkFn) (kdf : KdfFn) (aeadDec : AeadDecFn)
    (encrypted_data password : List Nat) : Except String (List Nat) :=
  match expectBytes ENC_HEADER encrypted_data with
  | some rest => decryptEnvelope paramsOk kdf aeadDec rest password
  | none => decryptLegacy encrypted_data password

/-- Model of `decrypt_config_data` (lines 345–442): password guards in
source order, then `decryptCore`. -/
def decrypt_config_data (paramsOk : ParamsOkFn) (kdf : KdfFn) (aeadDec : AeadDecFn)
    (encrypted_data password : List Nat) : Except String (List Nat) :=
  if password = [] then .error "密码不能为空"
  else if 1024 < password.length then .error "密码长度过长"
  else decryptCore paramsOk kdf aeadDec encrypted_data password

/-- Concrete KDF for counterexamples: the key is the password itself. -/
def cKdf : KdfFn := fun pw _ _ _ _ => pw

/-- Concrete AEAD encryption for counterexamples: prepend the key. -/
def cAeadEnc : AeadEncFn := fun k _ m => k ++ m

/-- Concrete AEAD decryption for counterexamples: succeed exactly when
the ciphertext starts with the key (so a wrong key authenticates as a
failure, like a real AEAD tag check). -/
def cAeadDec : AeadDecFn := fun k _ c => expectBytes k c

/-- The envelope `encrypt_config_data` produces for plaintext `{}` and
password `password` under `cKdf`/`cAeadEnc`, all-zero salt and nonce. -/
def c4Pay : Payload :=
  ⟨1, KDF_NAME, 32768, 3, 1, b64encode (List.replicate 16 0),
    b64encode (List.replicate 24 0),
    b64encode ([112, 97, 115, 115, 119, 111, 114, 100] ++ [123, 125])⟩

/-- The full marker-led envelope string for `c4Pay`. -/
def c4Envelope : List Nat := ENC_HEADER ++ b64encode (buildPayloadJson c4Pay)

/-! ### Session-blob decode: `decode_jetski_state_proto`

From `antigravity/account.rs` lines 6–30. The protobuf parse
(`SessionResponse::decode`, generated code outside `src/`) is a function
parameter. Rust's `str::trim` is modelled at the byte level for ASCII
whitespace; the library's own error display appended after the length is
elided from the modelled messages. -/

/-- ASCII whitespace bytes removed by `str::trim`. -/
def isAsciiWhitespace (b : Nat) : Bool := b = 32 || (9 ≤ b && b ≤ 13)

/-- Models `b64.trim().is_empty()`: every byte is whitespace. -/
def isBlank (l : List Nat) : Bool := l.all isAsciiWhitespace

def jetskiEmptyMsg : String := "jetskiStateSync.agentManagerInitState 为空"

/-- Transport-decode error message; embeds the input's byte length. -/
def jetskiTransportMsg (n : Nat) : String :=
  "jetskiStateSync.agentManagerInitState Base64 解码失败(len=" ++ toString n ++ ")"

/-- Schema-decode error message; embeds the decoded byte count. -/
def jetskiSchemaMsg (n : Nat) : String :=
  "jetskiStateSync.agentManagerInitState Protobuf 解码失败(len=" ++ toString n ++ ")"

/-- Model of `decode_jetski_state_proto`: blank check, base64 decode,
then the structured (protobuf) parse given as `protoDecode`. -/
def decode_jetski_state_proto {Proto : Type} (protoDecode : List Nat → Except String Proto)
    (b64 : List Nat) : Except String Proto :=
  if isBlank b64 then .error jetskiEmptyMsg
  else match b64decode b64 with
    | none => .error (jetskiTransportMsg b64.length)
    | some bytes =>
        match protoDecode bytes with
        | .error _ => .error (jetskiSchemaMsg bytes.length)
        | .ok msg => .ok msg

/-- Holds when `sub` occurs as a contiguous substring of `s`. -/
def strContainsSub (s sub : String) : Prop := sub.toList <:+: s.toList

/-! ### `clear_all_backups`

From `commands/account_manage_commands.rs` lines 232–260. The accounts
directory is modelled as `none` (missing) or the list of entry file
names; deletions are modelled as succeeding, matching the claim's scope
(a run in which no `remove_file` call fails). -/

/-- Models `Path::extension` of a plain file name: the portion after the last
dot, `none` when there is no dot or the only dot is the leading one. -/
def rustExtension (name : String) : Option String :=
  let cs := name.toList
  match cs.reverse.findIdx? (fun c => c = '.') with
  | none => none
  | some j =>
      let i := cs.length - 1 - j
      if i = 0 then none
      else some (String.mk (cs.drop (i + 1)))

/-- Model of `clear_all_backups`: with no directory, report success with
nothing to clear; otherwise delete exactly the `json`-extension entries
and report how many were deleted. -/
def clear_all_backups (dir : Option (List String)) :
    Except String String × Option (List String) :=
  match dir with
  | none => (.ok "用户目录不存在，无需清空", none)
  | some files =>
      (.ok ("已清空所有用户备份，共删除 " ++
          toString (files.filter (fun f => rustExtension f = some "json")).length ++
          " 个文件"),
       some (files.filter (fun f => ¬(rustExtension f = some "json"))))

/-! ### State-store reset: `clear_database`

From `antigravity_cleanup.rs` lines 10–77. The SQLite `ItemTable` is
modelled as an association list of key/value rows. `DELETE FROM ItemTable
WHERE key = ?` removes every row with the key; `UPDATE ItemTable SET
value = ? WHERE key = '__$__targetStorageMarker'` rewrites the value of
existing marker rows only (zero rows affected — and no insertion — when
the key is absent, which the code logs and skips). -/

/-- The fixed logged-out reference value written to the integrity marker
(`RESET_MARKER_VALUE`, lines 10–11 of `antigravity_cleanup.rs`). -/
def RESET_MARKER_VALUE : String :=
  "\x7b\"jetskiStateSync.agentManagerInitState\":1,\"history.recentlyOpenedPathsList\":1,\"antigravityUserSettings.allUserSettings\":1,\"workbench.view.debug.state.hidden\":0,\"workbench.activity.pinnedViewlets2\":0,\"workbench.activity.placeholderViewlets\":1,\"workbench.view.remote.state.hidden\":0,\"editorGroupAntigravityWelcomeKeybindings\":0,\"memento/notebookEditors\":1,\"memento/customEditors\":1,\"productIconThemeData\":1,\"colorThemeData\":0,\"iconThemeData\":1,\"workbench.panel.pinnedPanels\":0,\"workbench.panel.placeholderPanels\":1,\"~remote.forwardedPortsContainer.hidden\":0,\"workbench.telemetryOptOutShown\":0,\"releaseNotes/lastVersion\":1,\"perf/lastRunningCommit\":1,\"workbench.sideBar.size\":1,\"workbench.auxiliaryBar.size\":1,\"workbench.panel.size\":1,\"workbench.panel.lastNonMaximizedHeight\":1,\"workbench.panel.lastNonMaximizedWidth\":1,\"workbench.auxiliaryBar.lastNonMaximizedSize\":1,\"workbench.auxiliaryBar.empty\":1,\"workbench.panel.alignment\":0,\"chat.ChatSessionStore.index\":1,\"workbench.panel.repl.hidden\":0,\"google.antigravity\":1,\"extensions.trustedPublishers\":0,\"trusted-publishers-init-migration\":1,\"remote.wslFeatureInstalled\":1,\"chat.participantNameRegistry\":1,\"extensionTips/lastPromptedMediumImpExeTime\":1,\"vscode.typescript-language-features\":1,\"editorFontInfo\":1,\"workbench.activityBar.location\":0,\"antigravityChangelog/lastVersion\":1,\"sync.productQuality\":1,\"terminal.history.entries.dirs\":1,\"terminal.history.timestamp.dirs\":1,\"antigravityAuthStatus\":0,\"antigravity_allowed_command_model_configs\":0,\"antigravityOnboarding\":0,\"workbench.quickInput.viewState\":1,\"workbench.explorer.views.state.hidden\":0,\"chat.workspaceTransfer\":1,\"vscode.git\":1,\"vscode.github\":1,\"content.trust.model.key\":1,\"extensionsAssistant/recommendations\":1,\"editorOverrideService.cache\":1,\"workbench.editor.languageDetectionOpenedLanguages.global\":1\x7d"

/-- The integrity-marker key. -/
def MARKER_KEY : String := "__$__targetStorageMarker"

/-- Models `DELETE FROM ItemTable WHERE key = k`. -/
def sqlDelete (k : String) (st : List (String × String)) : List (String × String) :=
  st.filter (fun kv => ¬(kv.1 = k))

/-- Models `UPDATE ItemTable SET value = val WHERE key = k` (no insertion). -/
def sqlUpdate (k val : String) (st : List (String × String)) : List (String × String) :=
  st.map (fun kv => if kv.1 = k then (kv.1, val) else kv)

/-- Is a row with key `k` present (the `rows > 0` check of the code)? -/
def dbKeyPresent (k : String) (st : List (String × String)) : Bool :=
  st.any (fun kv => kv.1 = k)

/-- Final store contents after `clear_database`: the three auth keys
deleted, then the marker updated in place. -/
def clearedStore (st : List (String × String)) : List (String × String) :=
  sqlUpdate MARKER_KEY RESET_MARKER_VALUE
    (sqlDelete "antigravityOnboarding"
      (sqlDelete "antigravity.profileUrl"
        (sqlDelete "antigravityAuthStatus" st)))

/-- The `cleared_count` the code reports (one per delete that hit at
least one row, plus one if the marker update hit a row). -/
def clearedCount (st : List (String × String)) : Nat :=
  (if dbKeyPresent "antigravityAuthStatus" st then 1 else 0) +
  (if dbKeyPresent "antigravity.profileUrl" (sqlDelete "antigravityAuthStatus" st)
    then 1 else 0) +
  (if dbKeyPresent "antigravityOnboarding"
      (sqlDelete "antigravity.profileUrl" (sqlDelete "antigravityAuthStatus" st))
    then 1 else 0) +
  (if dbKeyPresent MARKER_KEY
      (sqlDelete "antigravityOnboarding"
        (sqlDelete "antigravity.profileUrl" (sqlDelete "antigravityAuthStatus" st)))
    then 1 else 0)

/-- Model of `clear_database` (always `Ok` once the connection is open;
per-key failures are tolerated and do not occur in the pure model). -/
def clear_database (st : List (String × String)) : Nat × List (String × String) :=
  (clearedCount st, clearedStore st)

/-! ### The switch orchestrator: `services/account.rs::switch`

From `services/account.rs` lines 308–409. The environment — the two
booleans the branch decision reads, the live-connection count, and the
results of the collaborator calls (`kill_antigravity_processes`,
`clear_all_data`, `restore`, `start_antigravity`) — is a record of
parameters. The store-mutating and process steps actually invoked are
recorded as an effect trace in invocation order; the async sleeps have
no observable effect and are not modelled. -/

inductive SwitchEffect where
  | killHost
  | clearData
  | restoreAccount (name : String)
  | broadcastReload
  | launchHost
deriving DecidableEq

structure SwitchEnv where
  hasExtension : Bool
  isRunning : Bool
  clientCount : Nat
  killResult : Except String String
  clearResult : Except String String
  restoreResult : Except String String
  startResult : Except String String

/-- Substring containment, as `str::contains` with a literal pattern. -/
def containsSub (s sub : String) : Bool := decide (sub.toList <:+: s.toList)

/-- Message of scenario 2 (host running, no extension). -/
def SWITCH_NEED_EXT_MSG : String :=
  "Antigravity 正在运行中，需要安装 VSCode 扩展才能切换账户。\n\n请安装 Antigravity Agent 扩展，扩展会自动重载 Antigravity 窗口。"

/-- Scenario 3 body after the kill step: clear, restore, then launch;
a launch failure reports that the data was restored. -/
def switchColdBody (env : SwitchEnv) (accountName : String) :
    Except String String × List SwitchEffect :=
  match env.clearResult with
  | .error e => (.error e, [.killHost, .clearData])
  | .ok _ =>
      match env.restoreResult with
      | .error e => (.error e, [.killHost, .clearData, .restoreAccount accountName])
      | .ok _ =>
          match env.startResult with
          | .ok _ =>
              (.ok ("账户已切换到 " ++ accountName ++ "，已启动 Antigravity"),
               [.killHost, .clearData, .restoreAccount accountName, .launchHost])
          | .error e =>
              (.error ("账户数据已恢复，但启动 Antigravity 失败: " ++ e),
               [.killHost, .clearData, .restoreAccount accountName, .launchHost])

/-- Model of `switch`: the three-branch decision on
`(has_extension_connections, is_antigravity_running)`. -/
def switch (env : SwitchEnv) (accountName : String) :
    Except String String × List SwitchEffect :=
  match env.hasExtension, env.isRunning with
  | true, _ =>
      match env.clearResult with
      | .error e => (.error e, [.clearData])
      | .ok _ =>
          match env.restoreResult with
          | .error e => (.error e, [.clearData, .restoreAccount accountName])
          | .ok _ =>
              (.ok ("账户已切换到 " ++ accountName ++ "，正在重载 " ++
                  toString env.clientCount ++ " 个 VSCode 窗口"),
               [.clearData, .restoreAccount accountName, .broadcastReload])
  | false, true => (.error SWITCH_NEED_EXT_MSG, [])
  | false, false =>
      match env.killResult with
      | .error e =>
          if containsSub e "not found" || containsSub e "未找到" then
            switchColdBody env accountName
          else (.error ("关闭进程时发生错误: " ++ e), [.killHost])
      | .ok _ => switchColdBody env accountName

/-! ### Save-path write steps: `backup_current` and `restore_backup_files`

`services/account.rs` lines 227–253 (`backup_current`) writes the target
`{email}.json` with a single `std::fs::write`. The batch restore
(`commands/account_manage_commands.rs` lines 181–204) writes a temp file
(`tempfile` in the same directory), removes an existing target, then
persists (renames) the temp file onto the target. Each save is modelled
as its sequence of primitive filesystem steps, with an interruption
semantics: a direct write interrupted mid-way leaves the target holding
a prefix of the new content; temp-file writes do not touch the target;
remove and rename are atomic. -/

inductive WriteStep where
  | writeTemp (content : List Nat)
  | removeTarget
  | renameTempToTarget
  | directWrite (content : List Nat)
deriving DecidableEq

/-- The write performed by `backup_current` for the serialized record:
one plain `std::fs::write` to the target. -/
def backupCurrentWriteSteps (content : List Nat) : List WriteStep :=
  [.directWrite content]

/-- The write performed per file by `restore_backup_files`: write the
payload to a temp file, remove the target if it existed, rename. -/
def restoreWriteSteps (targetExists : Bool) (content : List Nat) : List WriteStep :=
  [.writeTemp content] ++ (if targetExists then [.removeTarget] else []) ++
    [.renameTempToTarget]

/-- All target-file contents observable at any interruption point while
running `steps` from a target state `tgt` and temp state `tmp`
(`none` = file absent). -/
def observables : Option (List Nat) → Option (List Nat) → List WriteStep →
    List (Option (List Nat))
  | tgt, _, [] => [tgt]
  | tgt, tmp, s :: rest =>
      match s with
      | .directWrite c =>
          tgt :: ((List.range (c.length + 1)).map (fun k => some (c.take k)) ++
            observables (some c) tmp rest)
      | .writeTemp c => tgt :: observables tgt (some c) rest
      | .removeTarget => tgt :: observables none tmp rest
      | .renameTempToTarget => tgt :: observables (some (tmp.getD [])) none rest

/-! ### Account listing and export collection

`services/account.rs::get_all` (lines 9–82) and
`commands/account_manage_commands.rs::collect_account_contents`
(lines 54–121). A directory entry carries the file name, its metadata
size, the result of `fs::read_to_string`, and the modification time.
`serde_json::from_str`, the `jetskiStateSync…` field lookup and
`decode_jetski_state_proto` are function parameters over an abstract
JSON type. -/

structure DirEntry where
  name : String
  size : Nat
  read : Except String String
  mtime : Nat

/-- Models `str::ends_with(".json")`. -/
def strEndsWithJson (s : String) : Bool := decide ((".json".toList) <:+ s.toList)

/-- Models `str::trim_end_matches(".json")`, stripping every trailing occurrence;
fuel-driven on the length, which strictly drops at each strip. -/
def trimJsonAux : Nat → String → String
  | 0, s => s
  | fuel + 1, s =>
      if strEndsWithJson s then
        trimJsonAux fuel ⟨s.toList.take (s.toList.length - 5)⟩
      else s

def trimEndMatchesJson (s : String) : String := trimJsonAux s.toList.length s

/-- Model of `is_safe_backup_name` (lines 10–19): non-empty, at most 255 UTF-8
bytes, no slash, backslash or colon, every char ASCII-alphanumeric or
one of `@ . _ - +`. -/
def is_safe_backup_name (s : String) : Bool :=
  !(s.toList.isEmpty) &&
  (s.toList.foldl (fun n c => n + c.utf8Size) 0 ≤ 255) &&
  !(s.toList.contains '/') && !(s.toList.contains '\\') && !(s.toList.contains ':') &&
  s.toList.all (fun c =>
    c.isAlphanum || c = '@' || c = '.' || c = '_' || c = '-' || c = '+')

/-- Model of `is_safe_backup_filename` (lines 21–27). -/
def is_safe_backup_filename (filename : String) : Bool :=
  strEndsWithJson filename && is_safe_backup_name (trimEndMatchesJson filename)

/-- Models `Path::file_stem` of a plain file name: the name minus its
`rustExtension` (and the dot), or the whole name when there is none. -/
def stripLastExt (s : String) : String :=
  match rustExtension s with
  | none => s
  | some ext => ⟨s.toList.take (s.toList.length - (ext.toList.length + 1))⟩

/-- The per-entry outcome of the `collect_account_contents` loop body:
`none` — skipped silently (non-`json` extension, empty or unsafe name);
`some none` — skipped with a warning (oversized, unreadable, JSON parse
failure); `some (some (name, json))` — collected. -/
def classifyEntry {Json : Type} (pj : String → Except String Json) (e : DirEntry) :
    Option (Option (String × Json)) :=
  if rustExtension e.name = some "json" then
    if e.name = "" then none
    else if is_safe_backup_filename e.name = false then none
    else if 5242880 < e.size then some none
    else match e.read with
      | .error _ => some none
      | .ok content =>
          match pj content with
          | .error _ => some none
          | .ok j => some (some (e.name, j))
  else none

/-- Did the entry produce a warned skip? -/
def classifyWarn {Json : Type} (pj : String → Except String Json) (e : DirEntry) : Bool :=
  match classifyEntry pj e with
  | some none => true
  | _ => false

/-- The `collect_account_contents` loop: collected `(filename, content)`
pairs in scan order, plus the warned skips (the per-file
`tracing::warn!` calls) in scan order. -/
def collectAux {Json : Type} (pj : String → Except String Json) :
    List DirEntry → List (String × Json) × List String
  | [] => ([], [])
  | e :: rest =>
      let r := collectAux pj rest
      match classifyEntry pj e with
      | none => r
      | some none => (r.1, e.name :: r.2)
      | some (some kv) => (kv :: r.1, r.2)

/-- Model of `collect_account_contents` over a readable directory. -/
def collect_account_contents {Json : Type} (pj : String → Except String Json)
    (entries : List DirEntry) : List (String × Json) × List String :=
  collectAux pj entries

/-- The `get_all` loop: stops with the error of the first `json` file
that is unreadable, unparseable, missing the `jetskiStateSync…` key, or
undecodable. -/
def getAllAux {Json : Type} (pj : String → Except String Json)
    (gj : Json → Option String) (dp : String → Except String Json) :
    List DirEntry → Except String (List (Nat × Json))
  | [] => .ok []
  | e :: rest =>
      if rustExtension e.name = some "json" then
        match e.read with
        | .error err => .error ("读取文件失败 " ++ stripLastExt e.name ++ ": " ++ err)
        | .ok content =>
            match pj content with
            | .error err => .error ("解析 JSON 失败 " ++ stripLastExt e.name ++ ": " ++ err)
            | .ok backup =>
                match gj backup with
                | none => .error ("备份文件 " ++ stripLastExt e.name ++
                    " 缺少 jetskiStateSync.agentManagerInitState")
                | some js =>
                    match dp js with
                    | .error err => .error err
                    | .ok decoded =>
                        (getAllAux pj gj dp rest).map
                          (fun tail => (e.mtime, decoded) :: tail)
      else getAllAux pj gj dp rest

/-- Model of `get_all`: collect (aborting on the first bad file), then
sort by modification time, newest first, and drop the timestamps. -/
def get_all {Json : Type} (pj : String → Except String Json)
    (gj : Json → Option String) (dp : String → Except String Json)
    (entries : List DirEntry) : Except String (List Json) :=
  (getAllAux pj gj dp entries).map
    (fun accounts =>
      (accounts.mergeSort (fun a b => decide (b.1 ≤ a.1))).map Prod.snd)

/-- Concrete JSON parser for counterexamples: accepts only `good`. -/
def c3pj : String → Except String Nat :=
  fun s => if s = "good" then .ok 1 else .error "bad json"

def c3gj : Nat → Option String := fun _ => some "blob"

def c3dp : String → Except String Nat := fun _ => .ok 7

theorem b64index_b64char {i : Nat} (h : i < 64) : b64index (b64char i) = some i := by
  unfold b64char b64index
  split_ifs with h1 h2 h3 h4 <;> simp_all <;> omega

theorem b64char_lt_128 {i : Nat} (h : i < 64) : b64char i < 128 := by
  unfold b64char; split_ifs <;> omega

theorem b64char_ne_61 {i : Nat} (h : i < 64) : b64char i ≠ 61 := by
  unfold b64char; split_ifs <;> omega

theorem b64char_ne_58 (i : Nat) : b64char i ≠ 58 := by
  unfold b64char; split_ifs <;> omega

theorem b64char_ne_34 (i : Nat) : b64char i ≠ 34 := by
  unfold b64char; split_ifs <;> omega

/-- Decoding inverts encoding on genuine byte lists. -/
theorem b64decode_b64encode : ∀ bs : List Nat, (∀ b ∈ bs, b < 256) →
    b64decode (b64encode bs) = some bs
  | [], _ => rfl
  | [b0], h => by
      have hb0 : b0 < 256 := h b0 (by simp)
      simp only [b64encode, b64decode]
      rw [b64index_b64char (by omega), b64index_b64char (by omega)]
      dsimp only
      simp only [if_true, true_and]
      rw [if_pos (by omega : b0 % 4 * 16 % 16 = 0)]
      simp only [Option.some.injEq, List.cons.injEq, and_true]
      omega
  | [b0, b1], h => by
      have hb0 : b0 < 256 := h b0 (by simp)
      have hb1 : b1 < 256 := h b1 (by simp)
      simp only [b64encode, b64decode]
      rw [b64index_b64char (by omega), b64index_b64char (by omega)]
      dsimp only
      rw [if_neg (b64char_ne_61 (by omega)), b64index_b64char (by omega)]
      dsimp only
      simp only [if_true, true_and]
      rw [if_pos (by omega : b1 % 16 * 4 % 4 = 0)]
      simp only [Option.some.injEq, List.cons.injEq, and_true]
      omega
  | b0 :: b1 :: b2 :: rest, h => by
      have hb0 : b0 < 256 := h b0 (by simp)
      have hb1 : b1 < 256 := h b1 (by simp)
      have hb2 : b2 < 256 := h b2 (by simp)
      have ih := b64decode_b64encode rest (fun b hb => h b (by simp [hb]))
      simp only [b64encode, b64decode]
      rw [b64index_b64char (by omega), b64index_b64char (by omega)]
      dsimp only
      rw [if_neg (b64char_ne_61 (by omega)), b64index_b64char (by omega)]
      dsimp only
      rw [if_neg (b64char_ne_61 (by omega)), b64index_b64char (by omega)]
      dsimp only
      rw [ih]
      simp only [Option.map, Option.some.injEq, List.cons.injEq]
      refine ⟨by omega, by omega, by omega, by trivial⟩

/-- Every byte emitted by the encoder on genuine bytes is an alphabet
symbol (at some index below 64) or the padding byte `=` (61). -/
theorem b64encode_mem : ∀ bs : List Nat, (∀ b ∈ bs, b < 256) →
    ∀ c ∈ b64encode bs, (∃ i, i < 64 ∧ c = b64char i) ∨ c = 61
  | [], _ => by simp [b64encode]
  | [b0], h => by
      have hb0 : b0 < 256 := h b0 (by simp)
      intro c hc
      simp only [b64encode, List.mem_cons, List.not_mem_nil, or_false] at hc
      rcases hc with h1 | h1 | h1 | h1
      · exact Or.inl ⟨b0 / 4, by omega, h1⟩
      · exact Or.inl ⟨b0 % 4 * 16, by omega, h1⟩
      · exact Or.inr h1
      · exact Or.inr h1
  | [b0, b1], h => by
      have hb0 : b0 < 256 := h b0 (by simp)
      have hb1 : b1 < 256 := h b1 (by simp)
      intro c hc
      simp only [b64encode, List.mem_cons, List.not_mem_nil, or_false] at hc
      rcases hc with h1 | h1 | h1 | h1
      · exact Or.inl ⟨b0 / 4, by omega, h1⟩
      · exact Or.inl ⟨b0 % 4 * 16 + b1 / 16, by omega, h1⟩
      · exact Or.inl ⟨b1 % 16 * 4, by omega, h1⟩
      · exact Or.inr h1
  | b0 :: b1 :: b2 :: rest, h => by
      have hb0 : b0 < 256 := h b0 (by simp)
      have hb1 : b1 < 256 := h b1 (by simp)
      have hb2 : b2 < 256 := h b2 (by simp)
      have ih := b64encode_mem rest (fun b hb => h b (by simp [hb]))
      intro c hc
      simp only [b64encode, List.mem_cons] at hc
      rcases hc with h1 | h1 | h1 | h1 | h1
      · exact Or.inl ⟨b0 / 4, by omega, h1⟩
      · exact Or.inl ⟨b0 % 4 * 16 + b1 / 16, by omega, h1⟩
      · exact Or.inl ⟨b1 % 16 * 4 + b2 / 64, by omega, h1⟩
      · exact Or.inl ⟨b2 % 64, by omega, h1⟩
      · exact ih c h1

theorem b64encode_lt_128 {bs : List Nat} (hbs : ∀ b ∈ bs, b < 256) {c : Nat}
    (hc : c ∈ b64encode bs) : c < 128 := by
  rcases b64encode_mem bs hbs c hc with ⟨i, hi, rfl⟩ | rfl
  · exact b64char_lt_128 hi
  · omega

theorem b64encode_ne_58 {bs : List Nat} (hbs : ∀ b ∈ bs, b < 256) {c : Nat}
    (hc : c ∈ b64encode bs) : c ≠ 58 := by
  rcases b64encode_mem bs hbs c hc with ⟨i, _, rfl⟩ | rfl
  · exact b64char_ne_58 i
  · omega

theorem b64encode_ne_34 {bs : List Nat} (hbs : ∀ b ∈ bs, b < 256) {c : Nat}
    (hc : c ∈ b64encode bs) : c ≠ 34 := by
  rcases b64encode_mem bs hbs c hc with ⟨i, _, rfl⟩ | rfl
  · exact b64char_ne_34 i
  · omega

/-- A pure-ASCII byte sequence is valid UTF-8. -/
theorem validUtf8_of_ascii : ∀ l : List Nat, (∀ b ∈ l, b < 128) → validUtf8 l = true
  | [], _ => rfl
  | b :: rest, h => by
      have hb : b < 128 := h b (by simp)
      have ih := validUtf8_of_ascii rest (fun x hx => h x (by simp [hx]))
      rw [validUtf8.eq_def]
      dsimp only
      rw [if_pos hb]
      exact ih

theorem xorCycAux_involutive (pw : List Nat) :
    ∀ (i : Nat) (data : List Nat), xorCycAux pw i (xorCycAux pw i data) = data := by
  intro i data
  induction data generalizing i with
  | nil => rfl
  | cons b rest ih =>
      simp only [xorCycAux, Nat.xor_cancel_right, List.cons.injEq]
      exact ⟨trivial, ih (i + 1)⟩

/-- Decoding with the same password inverts the legacy XOR encoding. -/
theorem xorCyclic_involutive (data pw : List Nat) :
    xorCyclic (xorCyclic data pw) pw = data :=
  xorCycAux_involutive pw 0 data

theorem listGetD_lt_256 : ∀ (l : List Nat), (∀ b ∈ l, b < 256) → ∀ j, l.getD j 0 < 256 := by
  intro l hl j
  induction l generalizing j with
  | nil => simp [List.getD]
  | cons x xs ih =>
      cases j with
      | zero => simpa using hl x (by simp)
      | succ n =>
          simp only [List.getD_cons_succ]
          exact ih (fun b hb => hl b (by simp [hb])) n

theorem xorCycAux_lt_256 {pw : List Nat} (hpw : ∀ b ∈ pw, b < 256) :
    ∀ (i : Nat) (data : List Nat), (∀ b ∈ data, b < 256) →
      ∀ b ∈ xorCycAux pw i data, b < 256 := by
  intro i data
  induction data generalizing i with
  | nil => intro _ b hb; simp [xorCycAux] at hb
  | cons x rest ih =>
      intro h b hb
      simp only [xorCycAux, List.mem_cons] at hb
      rcases hb with rfl | hb
      · have hx : x < 256 := h x (by simp)
        have hk : pw.getD (i % pw.length) 0 < 256 := listGetD_lt_256 pw hpw _
        calc x ^^^ pw.getD (i % pw.length) 0 < 2 ^ 8 :=
              Nat.xor_lt_two_pow (by omega) (by omega)
          _ = 256 := rfl
      · exact ih (i + 1) (fun y hy => h y (by simp [hy])) b hb

theorem xorCyclic_lt_256 {pw data : List Nat} (hpw : ∀ b ∈ pw, b < 256)
    (hdata : ∀ b ∈ data, b < 256) : ∀ b ∈ xorCyclic data pw, b < 256 :=
  xorCycAux_lt_256 hpw 0 data hdata

theorem expectBytes_append (lit rest : List Nat) :
    expectBytes lit (lit ++ rest) = some rest := by
  induction lit with
  | nil => rfl
  | cons t ts ih => simp [expectBytes, ih]

/-- If the literal contains a byte the input never contains, matching fails. -/
theorem expectBytes_none_of_mem {x : Nat} :
    ∀ {lit l : List Nat}, x ∈ lit → x ∉ l → expectBytes lit l = none := by
  intro lit
  induction lit with
  | nil => intro l h; simp at h
  | cons t ts ih =>
      intro l hmem hnot
      cases l with
      | nil => rfl
      | cons c cs =>
          simp only [expectBytes]
          rcases List.mem_cons.mp hmem with rfl | hts
          · rw [if_neg (by intro h; exact hnot (by simp [h]))]
          · by_cases hct : c = t
            · rw [if_pos hct]
              exact ih hts (fun hx => hnot (by simp [hx]))
            · rw [if_neg hct]

theorem takeUntilQuote_append {s : List Nat} (hs : 34 ∉ s) (rest : List Nat) :
    takeUntilQuote (s ++ 34 :: rest) = some (s, rest) := by
  induction s with
  | nil => simp [takeUntilQuote]
  | cons c cs ih =>
      have hc : c ≠ 34 := fun h => hs (by simp [h])
      have ih2 := ih (fun h => hs (by simp [h]))
      simp only [List.cons_append, takeUntilQuote, if_neg hc, List.append_eq]
      rw [ih2]
      rfl

theorem natDigitsAux_fuel : ∀ n f1 f2 : Nat, n ≤ f1 → n ≤ f2 →
    natDigitsAux f1 n = natDigitsAux f2 n := by
  intro n
  induction n using Nat.strong_induction_on with
  | _ n ih =>
      intro f1 f2 h1 h2
      by_cases hn : n < 10
      · cases f1 with
        | zero =>
            cases f2 with
            | zero => rfl
            | succ f2 =>
                interval_cases n
                all_goals rfl
        | succ f1 =>
            cases f2 with
            | zero =>
                interval_cases n
                all_goals rfl
            | succ f2 => simp [natDigitsAux, hn]
      · obtain ⟨g1, rfl⟩ : ∃ g1, f1 = g1 + 1 := ⟨f1 - 1, by omega⟩
        obtain ⟨g2, rfl⟩ : ∃ g2, f2 = g2 + 1 := ⟨f2 - 1, by omega⟩
        simp only [natDigitsAux, if_neg hn]
        rw [ih (n / 10) (by omega) g1 g2 (by omega) (by omega)]

/-- The defining recursion of `natDigits`. -/
theorem natDigits_eq (n : Nat) :
    natDigits n = if n < 10 then [48 + n] else natDigits (n / 10) ++ [48 + n % 10] := by
  by_cases hn : n < 10
  · rw [if_pos hn]
    cases n with
    | zero => rfl
    | succ k => simp [natDigits, natDigitsAux, hn]
  · rw [if_neg hn]
    unfold natDigits
    obtain ⟨g, hg⟩ : ∃ g, n = g + 1 := ⟨n - 1, by omega⟩
    rw [hg]
    simp only [natDigitsAux, if_neg (hg ▸ hn)]
    rw [natDigitsAux_fuel ((g + 1) / 10) g ((g + 1) / 10) (by omega) (by omega)]

theorem natDigits_digits : ∀ n, ∀ c ∈ natDigits n, 48 ≤ c ∧ c ≤ 57 := by
  intro n
  induction n using Nat.strong_induction_on with
  | _ n ih =>
      intro c hc
      rw [natDigits_eq] at hc
      by_cases h : n < 10
      · rw [if_pos h] at hc
        simp at hc
        omega
      · rw [if_neg h] at hc
        rcases List.mem_append.mp hc with h1 | h1
        · exact ih (n / 10) (by omega) c h1
        · simp at h1; omega

theorem parseNatAux_append : ∀ (n acc : Nat) (l : List Nat),
    parseNatAux acc (natDigits n ++ l) =
      parseNatAux (acc * 10 ^ (natDigits n).length + n) l := by
  intro n
  induction n using Nat.strong_induction_on with
  | _ n ih =>
      intro acc l
      rw [natDigits_eq]
      by_cases h : n < 10
      · rw [if_pos h]
        simp only [List.cons_append, List.nil_append, parseNatAux, List.length_cons,
          List.length_nil]
        rw [if_pos (by omega)]
        congr 1
        simp only [pow_succ, pow_zero, one_mul]
        omega
      · rw [if_neg h]
        rw [List.append_assoc, List.cons_append, List.nil_append]
        rw [ih (n / 10) (by omega) acc ((48 + n % 10) :: l)]
        simp only [List.cons_append, List.nil_append, parseNatAux]
        rw [if_pos (by omega)]
        congr 1
        simp only [List.length_append, List.length_cons, List.length_nil, pow_succ,
          pow_zero, one_mul, Nat.zero_add]
        have hsub : 48 + n % 10 - 48 = n % 10 := by omega
        rw [hsub]
        have expand : (acc * 10 ^ (natDigits (n / 10)).length + n / 10) * 10 + n % 10 =
            acc * 10 ^ (natDigits (n / 10)).length * 10 + (n / 10 * 10 + n % 10) := by
          ring
        have hdm : n / 10 * 10 + n % 10 = n := by omega
        rw [expand, hdm]
        ring

theorem parseNat_digits_append (n : Nat) {l : List Nat} (hl : headNotDigit l = true) :
    parseNat (natDigits n ++ l) = some (n, l) := by
  have hne : natDigits n ≠ [] := by
    rw [natDigits_eq]; split <;> simp
  obtain ⟨c, rest, hd⟩ : ∃ c rest, natDigits n = c :: rest := by
    cases hx : natDigits n with
    | nil => exact absurd hx hne
    | cons c rest => exact ⟨c, rest, rfl⟩
  obtain ⟨hc1, hc2⟩ := natDigits_digits n c (by simp [hd])
  have hstop : parseNatAux n l = (n, l) := by
    cases l with
    | nil => rfl
    | cons x xs =>
        simp only [headNotDigit, Bool.not_eq_eq_eq_not, Bool.not_true] at hl
        simp only [parseNatAux]
        rw [if_neg]
        intro hx
        simp [hx.1, hx.2] at hl
  have key := parseNatAux_append n 0 l
  rw [zero_mul, zero_add] at key
  rw [hd] at key
  simp only [List.cons_append, parseNatAux, if_pos (And.intro hc1 hc2)] at key
  rw [hd]
  simp only [List.cons_append, parseNat, if_pos (And.intro hc1 hc2)]
  rw [show c - 48 = 0 * 10 + (c - 48) from by omega]
  simp only [List.append_eq] at key ⊢
  rw [key, hstop]

theorem expectBytes_self (lit : List Nat) : expectBytes lit lit = some [] := by
  have h := expectBytes_append lit []
  simpa using h

/-- Parsing inverts serialization for in-range payloads whose string
fields are quote-free. -/
theorem parsePayload_build (p : Payload)
    (hv : p.v ≤ 255) (hm : p.m_cost_kib < 4294967296) (ht : p.t_cost < 4294967296)
    (hp : p.p_cost < 4294967296) (hkdf : 34 ∉ p.kdf) (hsalt : 34 ∉ p.salt_b64)
    (hnonce : 34 ∉ p.nonce_b64) (hct : 34 ∉ p.ct_b64) :
    parsePayload (buildPayloadJson p) = some p := by
  unfold parsePayload buildPayloadJson
  rw [expectBytes_append]
  dsimp only
  rw [parseNat_digits_append _ (by rfl)]
  dsimp only
  rw [if_neg (by omega)]
  rw [expectBytes_append]
  dsimp only
  rw [takeUntilQuote_append hkdf]
  dsimp only
  rw [expectBytes_append]
  dsimp only
  rw [parseNat_digits_append _ (by rfl)]
  dsimp only
  rw [if_neg (by omega)]
  rw [expectBytes_append]
  dsimp only
  rw [parseNat_digits_append _ (by rfl)]
  dsimp only
  rw [if_neg (by omega)]
  rw [expectBytes_append]
  dsimp only
  rw [parseNat_digits_append _ (by rfl)]
  dsimp only
  rw [if_neg (by omega)]
  rw [expectBytes_append]
  dsimp only
  rw [takeUntilQuote_append hsalt]
  dsimp only
  rw [expectBytes_append]
  dsimp only
  rw [takeUntilQuote_append hnonce]
  dsimp only
  rw [expectBytes_append]
  dsimp only
  rw [takeUntilQuote_append hct]
  dsimp only
  rw [expectBytes_self]
  dsimp only
  rw [if_pos rfl]

theorem natDigits_lt_128 (n : Nat) : ∀ b ∈ natDigits n, b < 128 := by
  intro b hb
  have := natDigits_digits n b hb
  omega

theorem buildPayloadJson_lt_128 (p : Payload)
    (hkdf : ∀ b ∈ p.kdf, b < 128) (hsalt : ∀ b ∈ p.salt_b64, b < 128)
    (hnonce : ∀ b ∈ p.nonce_b64, b < 128) (hct : ∀ b ∈ p.ct_b64, b < 128) :
    ∀ b ∈ buildPayloadJson p, b < 128 := by
  unfold buildPayloadJson
  refine List.forall_mem_append.mpr ⟨by decide, ?_⟩
  refine List.forall_mem_append.mpr ⟨natDigits_lt_128 _, ?_⟩
  refine List.forall_mem_append.mpr ⟨by decide, ?_⟩
  refine List.forall_mem_append.mpr ⟨hkdf, ?_⟩
  refine List.forall_mem_cons.mpr ⟨by omega, ?_⟩
  refine List.forall_mem_append.mpr ⟨by decide, ?_⟩
  refine List.forall_mem_append.mpr ⟨natDigits_lt_128 _, ?_⟩
  refine List.forall_mem_append.mpr ⟨by decide, ?_⟩
  refine List.forall_mem_append.mpr ⟨natDigits_lt_128 _, ?_⟩
  refine List.forall_mem_append.mpr ⟨by decide, ?_⟩
  refine List.forall_mem_append.mpr ⟨natDigits_lt_128 _, ?_⟩
  refine List.forall_mem_append.mpr ⟨by decide, ?_⟩
  refine List.forall_mem_append.mpr ⟨hsalt, ?_⟩
  refine List.forall_mem_cons.mpr ⟨by omega, ?_⟩
  refine List.forall_mem_append.mpr ⟨by decide, ?_⟩
  refine List.forall_mem_append.mpr ⟨hnonce, ?_⟩
  refine List.forall_mem_cons.mpr ⟨by omega, ?_⟩
  refine List.forall_mem_append.mpr ⟨by decide, ?_⟩
  refine List.forall_mem_append.mpr ⟨hct, ?_⟩
  refine List.forall_mem_cons.mpr ⟨by omega, by decide⟩

theorem decryptCore_header (paramsOk : ParamsOkFn) (kdf : KdfFn) (aeadDec : AeadDecFn)
    (rest pw : List Nat) :
    decryptCore paramsOk kdf aeadDec (ENC_HEADER ++ rest) pw =
      decryptEnvelope paramsOk kdf aeadDec rest pw := by
  unfold decryptCore
  rw [expectBytes_append]

theorem decryptCore_noheader (paramsOk : ParamsOkFn) (kdf : KdfFn) (aeadDec : AeadDecFn)
    (data pw : List Nat) (h : expectBytes ENC_HEADER data = none) :
    decryptCore paramsOk kdf aeadDec data pw = decryptLegacy data pw := by
  unfold decryptCore
  rw [h]

theorem decryptEnvelope_parse (paramsOk : ParamsOkFn) (kdf : KdfFn) (aeadDec : AeadDecFn)
    (pw json : List Nat) (pay : Payload)
    (hb : ∀ b ∈ json, b < 128) (hparse : parsePayload json = some pay) :
    decryptEnvelope paramsOk kdf aeadDec (b64encode json) pw =
      decryptWithPayload paramsOk kdf aeadDec pay pw := by
  unfold decryptEnvelope
  rw [b64decode_b64encode _ (fun b hbb => by have := hb b hbb; omega)]
  dsimp only
  rw [validUtf8_of_ascii _ hb, if_pos rfl, hparse]

theorem decryptWithPayload_ok (paramsOk : ParamsOkFn) (kdf : KdfFn) (aeadDec : AeadDecFn)
    (pw salt nonce ct p : List Nat) (m t pc : Nat)
    (hsaltb : ∀ b ∈ salt, b < 256) (hnonceb : ∀ b ∈ nonce, b < 256)
    (hctb : ∀ b ∈ ct, b < 256)
    (hsaltlen : salt.length = 16) (hnoncelen : nonce.length = 24)
    (hparams : paramsOk m t pc = true)
    (hdec : aeadDec (kdf pw salt m t pc) nonce ct = some p)
    (hvalid : validUtf8 p = true) :
    decryptWithPayload paramsOk kdf aeadDec
      ⟨1, KDF_NAME, m, t, pc, b64encode salt, b64encode nonce, b64encode ct⟩ pw =
      .ok p := by
  unfold decryptWithPayload
  rw [if_neg (by simp)]
  dsimp only
  rw [b64decode_b64encode salt hsaltb]
  dsimp only
  rw [b64decode_b64encode nonce hnonceb]
  dsimp only
  rw [b64decode_b64encode ct hctb]
  dsimp only
  rw [if_neg (by simp [hsaltlen, hnoncelen]), if_neg (by simp [hparams]), hdec]
  dsimp only
  rw [if_pos hvalid]

/-- C1: for every valid-UTF-8 plaintext of at most 5 MiB and every
password of 8–1024 bytes, decrypting the encryption of the plaintext
with the same password succeeds and returns exactly the plaintext
(for any KDF/AEAD satisfying the libraries' round-trip contract, any
16-byte salt and 24-byte nonce). -/
theorem c1_encrypt_decrypt_roundtrip
    (paramsOk : ParamsOkFn) (kdf : KdfFn) (aeadEnc : AeadEncFn) (aeadDec : AeadDecFn)
    (p pw salt nonce : List Nat)
    (hvalid : validUtf8 p = true) (hpbytes : ∀ b ∈ p, b < 256)
    (hplen : p.length ≤ 5242880)
    (hpw8 : 8 ≤ pw.length) (hpw1024 : pw.length ≤ 1024)
    (hsaltlen : salt.length = 16) (hsaltb : ∀ b ∈ salt, b < 256)
    (hnoncelen : nonce.length = 24) (hnonceb : ∀ b ∈ nonce, b < 256)
    (hparams : paramsOk 32768 3 1 = true)
    (hctb : ∀ k n m, (∀ b ∈ m, b < 256) → ∀ b ∈ aeadEnc k n m, b < 256)
    (hinv : ∀ k n m, aeadDec k n (aeadEnc k n m) = some m) :
    ∃ out, encrypt_config_data paramsOk kdf aeadEnc salt nonce p pw = .ok out ∧
      decrypt_config_data paramsOk kdf aeadDec out pw = .ok p := by
  have hpwne : pw ≠ [] := by
    intro h
    rw [h] at hpw8
    simp at hpw8
  have hctbytes : ∀ b ∈ aeadEnc (kdf pw salt 32768 3 1) nonce p, b < 256 :=
    hctb _ _ _ hpbytes
  refine ⟨ENC_HEADER ++ b64encode (buildPayloadJson
    ⟨1, KDF_NAME, 32768, 3, 1, b64encode salt, b64encode nonce,
      b64encode (aeadEnc (kdf pw salt 32768 3 1) nonce p)⟩), ?_, ?_⟩
  · unfold encrypt_config_data
    rw [if_neg (by omega), if_neg hpwne, if_neg (by omega), if_neg (by omega),
      if_neg (by simp [hparams])]
  · have hpayb := buildPayloadJson_lt_128
        ⟨1, KDF_NAME, 32768, 3, 1, b64encode salt, b64encode nonce,
          b64encode (aeadEnc (kdf pw salt 32768 3 1) nonce p)⟩
        ((by decide : ∀ b ∈ KDF_NAME, b < 128)) (fun b hb => b64encode_lt_128 hsaltb hb)
        (fun b hb => b64encode_lt_128 hnonceb hb)
        (fun b hb => b64encode_lt_128 hctbytes hb)
    have hparse := parsePayload_build
      ⟨1, KDF_NAME, 32768, 3, 1, b64encode salt, b64encode nonce,
        b64encode (aeadEnc (kdf pw salt 32768 3 1) nonce p)⟩
      (by norm_num : (1:Nat) ≤ 255)
      (by norm_num : (32768:Nat) < 4294967296) (by norm_num : (3:Nat) < 4294967296)
      (by norm_num : (1:Nat) < 4294967296) ((by decide : (34:Nat) ∉ KDF_NAME))
      (fun hmem => (b64encode_ne_34 hsaltb hmem) rfl)
      (fun hmem => (b64encode_ne_34 hnonceb hmem) rfl)
      (fun hmem => (b64encode_ne_34 hctbytes hmem) rfl)
    unfold decrypt_config_data
    rw [if_neg hpwne, if_neg (by omega), decryptCore_header,
      decryptEnvelope_parse _ _ _ _ _ _ hpayb hparse,
      decryptWithPayload_ok _ _ _ _ _ _ _ _ _ _ _ hsaltb hnonceb hctbytes hsaltlen
        hnoncelen hparams (hinv _ _ _) hvalid]

/-- Concrete instantiation of C1: identity AEAD, truncating KDF,
two-byte plaintext, eight-byte password. -/
theorem c1_witness :
    ∃ out, encrypt_config_data (fun _ _ _ => true) (fun pw _ _ _ _ => pw.take 32)
        (fun _ _ m => m) (List.replicate 16 0) (List.replicate 24 0)
        [104, 105] [112, 97, 115, 115, 119, 111, 114, 100] = .ok out ∧
      decrypt_config_data (fun _ _ _ => true) (fun pw _ _ _ _ => pw.take 32)
        (fun _ _ c => some c) out [112, 97, 115, 115, 119, 111, 114, 100] =
        .ok [104, 105] :=
  c1_encrypt_decrypt_roundtrip _ _ _ _ _ _ _ _
    (by decide) (by decide) (by decide) (by decide) (by decide)
    (by decide) (by decide) (by decide) (by decide) (by decide)
    (fun _ _ _ h => h) (fun _ _ _ => rfl)

/-- C6: for every plaintext `p` (valid UTF-8 bytes) and non-empty
password of at most 1024 bytes, decrypting the legacy format — standard
base64 of `p` XOR'd byte-wise against the cyclically repeated password —
returns exactly `p`; and `encrypt_config_data` never produces the legacy
format: every successful output starts with the `AGENC1:` marker. -/
theorem c6_legacy_roundtrip_and_header_only :
    (∀ (paramsOk : ParamsOkFn) (kdf : KdfFn) (aeadDec : AeadDecFn) (p pw : List Nat),
      validUtf8 p = true → (∀ b ∈ p, b < 256) →
      pw ≠ [] → pw.length ≤ 1024 → (∀ b ∈ pw, b < 256) →
      decrypt_config_data paramsOk kdf aeadDec (b64encode (xorCyclic p pw)) pw = .ok p) ∧
    (∀ (paramsOk : ParamsOkFn) (kdf : KdfFn) (aeadEnc : AeadEncFn)
        (salt nonce data pw out : List Nat),
      encrypt_config_data paramsOk kdf aeadEnc salt nonce data pw = .ok out →
      ∃ rest, out = ENC_HEADER ++ rest) := by
  constructor
  · intro paramsOk kdf aeadDec p pw hvalid hpb hne hlen hpwb
    have hxorb : ∀ b ∈ xorCyclic p pw, b < 256 := xorCyclic_lt_256 hpwb hpb
    unfold decrypt_config_data
    rw [if_neg hne, if_neg (by omega)]
    rw [decryptCore_noheader _ _ _ _ _ (expectBytes_none_of_mem (by decide)
      (fun hmem => (b64encode_ne_58 hxorb hmem) rfl))]
    unfold decryptLegacy
    rw [b64decode_b64encode _ hxorb]
    dsimp only
    rw [xorCyclic_involutive, if_pos hvalid]
  · intro paramsOk kdf aeadEnc salt nonce data pw out hok
    unfold encrypt_config_data at hok
    split_ifs at hok
    all_goals exact ⟨_, (Except.ok.inj hok).symm⟩

/-- Concrete instantiation of C6: a one-byte password decrypts its own
legacy XOR export, and a concrete encryption output carries the marker. -/
theorem c6_witness :
    decrypt_config_data (fun _ _ _ => true) (fun pw2 _ _ _ _ => pw2.take 32)
      (fun _ _ c => some c) (b64encode (xorCyclic [104, 105] [107])) [107] =
      .ok [104, 105] ∧
    (∃ out rest,
      encrypt_config_data (fun _ _ _ => true) (fun pw2 _ _ _ _ => pw2.take 32)
        (fun _ _ m => m) (List.replicate 16 0) (List.replicate 24 0) [104, 105]
        [112, 97, 115, 115, 119, 111, 114, 100] = .ok out ∧
      out = ENC_HEADER ++ rest) := by
  constructor
  · exact c6_legacy_roundtrip_and_header_only.1 _ _ _ _ _
      (by decide) (by decide) (by decide) (by decide) (by decide)
  · obtain ⟨out, hout⟩ : ∃ out,
        encrypt_config_data (fun _ _ _ => true) (fun pw2 _ _ _ _ => pw2.take 32)
          (fun _ _ m => m) (List.replicate 16 0) (List.replicate 24 0) [104, 105]
          [112, 97, 115, 115, 119, 111, 114, 100] = .ok out := ⟨_, rfl⟩
    obtain ⟨rest, hrest⟩ :=
      c6_legacy_roundtrip_and_header_only.2 _ _ _ _ _ _ _ _ hout
    exact ⟨out, rest, hout, hrest⟩

/-- C7: `encrypt_config_data` rejects every password shorter than 8 or
longer than 1024 bytes; for a well-sized password (and in-bounds
plaintext and valid library parameters) its output starts with the
`AGENC1:` marker; `decrypt_config_data` accepts any non-empty password
of at most 1024 bytes — its password guards pass and it proceeds to the
decryption body with no minimum length. -/
theorem c7_password_validation :
    (∀ (paramsOk : ParamsOkFn) (kdf : KdfFn) (aeadEnc : AeadEncFn)
        (salt nonce data pw : List Nat), pw.length < 8 →
      ∃ e, encrypt_config_data paramsOk kdf aeadEnc salt nonce data pw = .error e) ∧
    (∀ (paramsOk : ParamsOkFn) (kdf : KdfFn) (aeadEnc : AeadEncFn)
        (salt nonce data pw : List Nat), 1024 < pw.length →
      ∃ e, encrypt_config_data paramsOk kdf aeadEnc salt nonce data pw = .error e) ∧
    (∀ (paramsOk : ParamsOkFn) (kdf : KdfFn) (aeadEnc : AeadEncFn)
        (salt nonce data pw : List Nat),
      data.length ≤ 5242880 → 8 ≤ pw.length → pw.length ≤ 1024 →
      paramsOk 32768 3 1 = true →
      ∃ rest, encrypt_config_data paramsOk kdf aeadEnc salt nonce data pw =
        .ok (ENC_HEADER ++ rest)) ∧
    (∀ (paramsOk : ParamsOkFn) (kdf : KdfFn) (aeadDec : AeadDecFn)
        (data pw : List Nat), pw ≠ [] → pw.length ≤ 1024 →
      decrypt_config_data paramsOk kdf aeadDec data pw =
        decryptCore paramsOk kdf aeadDec data pw) := by
  refine ⟨?_, ?_, ?_, ?_⟩
  · intro paramsOk kdf aeadEnc salt nonce data pw hlt
    unfold encrypt_config_data
    split_ifs <;> exact ⟨_, rfl⟩
  · intro paramsOk kdf aeadEnc salt nonce data pw hlt
    unfold encrypt_config_data
    split_ifs <;> exact ⟨_, rfl⟩
  · intro paramsOk kdf aeadEnc salt nonce data pw hdata hpw8 hpw1024 hparams
    have hne : pw ≠ [] := by
      intro h
      rw [h] at hpw8
      simp at hpw8
    unfold encrypt_config_data
    rw [if_neg (by omega), if_neg hne, if_neg (by omega), if_neg (by omega),
      if_neg (by simp [hparams])]
    exact ⟨_, rfl⟩
  · intro paramsOk kdf aeadDec data pw hne hlen
    unfold decrypt_config_data
    rw [if_neg hne, if_neg (by omega)]

/-- Concrete instantiation of C7: the five-byte password `short` is
rejected, a 1025-byte password is rejected, the eight-byte password
`password` yields a marker-led output for the plaintext braces, and a
one-byte password reaches the decryption body. -/
theorem c7_witness :
    (∃ e, encrypt_config_data (fun _ _ _ => true) (fun pw2 _ _ _ _ => pw2.take 32)
      (fun _ _ m => m) (List.replicate 16 0) (List.replicate 24 0) [123, 125]
      [115, 104, 111, 114, 116] = .error e) ∧
    (∃ e, encrypt_config_data (fun _ _ _ => true) (fun pw2 _ _ _ _ => pw2.take 32)
      (fun _ _ m => m) (List.replicate 16 0) (List.replicate 24 0) [123, 125]
      (List.replicate 1025 97) = .error e) ∧
    (∃ rest, encrypt_config_data (fun _ _ _ => true) (fun pw2 _ _ _ _ => pw2.take 32)
      (fun _ _ m => m) (List.replicate 16 0) (List.replicate 24 0) [123, 125]
      [112, 97, 115, 115, 119, 111, 114, 100] = .ok (ENC_HEADER ++ rest)) ∧
    decrypt_config_data (fun _ _ _ => true) (fun pw2 _ _ _ _ => pw2.take 32)
      (fun _ _ c => some c) [104] [107] =
      decryptCore (fun _ _ _ => true) (fun pw2 _ _ _ _ => pw2.take 32)
        (fun _ _ c => some c) [104] [107] :=
  ⟨c7_password_validation.1 _ _ _ _ _ _ _ (by decide),
   c7_password_validation.2.1 _ _ _ _ _ _ _ (by rw [List.length_replicate]; omega),
   c7_password_validation.2.2.1 _ _ _ _ _ _ _ (by decide) (by decide) (by decide) rfl,
   c7_password_validation.2.2.2 _ _ _ _ _ (by decide) (by decide)⟩

/-- C4 counterexample: on a genuine envelope (produced by
`encrypt_config_data` itself) decrypted with a wrong password, the AEAD
authentication failure yields the message `解密失败，密码错误或数据已损坏`,
while a garbled envelope (marker followed by `!!!`) yields the different
message `密文格式无效` — so an AEAD failure does NOT yield the same
generic error as a malformed envelope, contrary to the claim. -/
theorem c4_counterexample :
    encrypt_config_data (fun _ _ _ => true) cKdf cAeadEnc (List.replicate 16 0)
      (List.replicate 24 0) [123, 125] [112, 97, 115, 115, 119, 111, 114, 100] =
      .ok c4Envelope ∧
    decrypt_config_data (fun _ _ _ => true) cKdf cAeadDec c4Envelope
      [119, 114, 111, 110, 103, 112, 97, 115, 115] =
      .error "解密失败，密码错误或数据已损坏" ∧
    decrypt_config_data (fun _ _ _ => true) cKdf cAeadDec
      (ENC_HEADER ++ [33, 33, 33]) [119, 114, 111, 110, 103, 112, 97, 115, 115] =
      .error "密文格式无效" ∧
    ("解密失败，密码错误或数据已损坏" : String) ≠ "密文格式无效" :=
  ⟨rfl, rfl, rfl, by decide⟩

/-- C4 (amended): an AEAD authentication failure — whether caused by a
wrong password or by corrupted ciphertext — always yields the single
fixed message `解密失败，密码错误或数据已损坏`, independent of the cause, so
the error never distinguishes password from ciphertext; but a garbled
envelope (base64 failure after the marker) yields the different fixed
message `密文格式无效`, not the same one. -/
theorem c4_aead_error_uniform :
    (∀ (paramsOk : ParamsOkFn) (kdf : KdfFn) (aeadDec : AeadDecFn)
        (data pw rest json salt nonce ct : List Nat) (pay : Payload),
      pw ≠ [] → pw.length ≤ 1024 →
      expectBytes ENC_HEADER data = some rest →
      b64decode rest = some json →
      validUtf8 json = true →
      parsePayload json = some pay →
      pay.v = 1 → pay.kdf = KDF_NAME →
      b64decode pay.salt_b64 = some salt →
      b64decode pay.nonce_b64 = some nonce →
      b64decode pay.ct_b64 = some ct →
      salt.length = 16 → nonce.length = 24 →
      paramsOk pay.m_cost_kib pay.t_cost pay.p_cost = true →
      aeadDec (kdf pw salt pay.m_cost_kib pay.t_cost pay.p_cost) nonce ct = none →
      decrypt_config_data paramsOk kdf aeadDec data pw =
        .error "解密失败，密码错误或数据已损坏") ∧
    (∀ (paramsOk : ParamsOkFn) (kdf : KdfFn) (aeadDec : AeadDecFn)
        (data pw rest : List Nat),
      pw ≠ [] → pw.length ≤ 1024 →
      expectBytes ENC_HEADER data = some rest →
      b64decode rest = none →
      decrypt_config_data paramsOk kdf aeadDec data pw = .error "密文格式无效") ∧
    ("解密失败，密码错误或数据已损坏" : String) ≠ "密文格式无效" := by
  refine ⟨?_, ?_, by decide⟩
  · intro paramsOk kdf aeadDec data pw rest json salt nonce ct pay
      hne hlen hstrip hjson hutf hparse hv hname hsaltd hnonced hctd hsl hnl hpok haead
    unfold decrypt_config_data
    rw [if_neg hne, if_neg (by omega)]
    unfold decryptCore
    rw [hstrip]
    dsimp only
    unfold decryptEnvelope
    rw [hjson]
    dsimp only
    rw [hutf, if_pos rfl, hparse]
    dsimp only
    unfold decryptWithPayload
    rw [if_neg (by simp [hv, hname]), hsaltd]
    dsimp only
    rw [hnonced]
    dsimp only
    rw [hctd]
    dsimp only
    rw [if_neg (by simp [hsl, hnl]), if_neg (by simp [hpok]), haead]
  · intro paramsOk kdf aeadDec data pw rest hne hlen hstrip hjson
    unfold decrypt_config_data
    rw [if_neg hne, if_neg (by omega)]
    unfold decryptCore
    rw [hstrip]
    dsimp only
    unfold decryptEnvelope
    rw [hjson]

set_option maxRecDepth 8000 in
/-- Concrete instantiation of the amended C4 at the counterexample
envelope and a garbled input. -/
theorem c4_amended_witness :
    decrypt_config_data (fun _ _ _ => true) cKdf cAeadDec c4Envelope
      [119, 114, 111, 110, 103, 112, 97, 115, 115] =
      .error "解密失败，密码错误或数据已损坏" ∧
    decrypt_config_data (fun _ _ _ => true) cKdf cAeadDec
      (ENC_HEADER ++ [33, 33, 33]) [119, 114, 111, 110, 103, 112, 97, 115, 115] =
      .error "密文格式无效" :=
  ⟨c4_aead_error_uniform.1 _ _ _ _ _ (b64encode (buildPayloadJson c4Pay))
      (buildPayloadJson c4Pay) (List.replicate 16 0) (List.replicate 24 0)
      ([112, 97, 115, 115, 119, 111, 114, 100] ++ [123, 125]) c4Pay
      (by decide) (by decide) rfl (by rfl) (by rfl) (by rfl) rfl rfl (by rfl) (by rfl)
      (by rfl) (by rfl) (by rfl) rfl (by rfl),
   c4_aead_error_uniform.2.1 _ _ _ _ _ [33, 33, 33]
      (by decide) (by decide) rfl (by rfl)⟩

/-- C9: the session-blob decode fails with the empty-input error on
blank (whitespace-only) input; on base64 failure it returns the
transport-decode error whose message contains the input's length; on
structured-parse failure it returns the schema-decode error; it never
succeeds on such inputs (each case is a definite `.error`). -/
theorem c9_decode_jetski_errors :
    (∀ (Proto : Type) (pd : List Nat → Except String Proto) (input : List Nat),
      isBlank input = true →
      decode_jetski_state_proto pd input = .error jetskiEmptyMsg) ∧
    (∀ (Proto : Type) (pd : List Nat → Except String Proto) (input : List Nat),
      isBlank input = false → b64decode input = none →
      decode_jetski_state_proto pd input = .error (jetskiTransportMsg input.length)) ∧
    (∀ n : Nat, strContainsSub (jetskiTransportMsg n) (toString n)) ∧
    (∀ (Proto : Type) (pd : List Nat → Except String Proto) (input bytes : List Nat)
        (e : String),
      isBlank input = false → b64decode input = some bytes → pd bytes = .error e →
      decode_jetski_state_proto pd input = .error (jetskiSchemaMsg bytes.length)) := by
  refine ⟨?_, ?_, ?_, ?_⟩
  · intro Proto pd input hblank
    unfold decode_jetski_state_proto
    rw [if_pos hblank]
  · intro Proto pd input hblank hdec
    unfold decode_jetski_state_proto
    rw [if_neg (by simp [hblank]), hdec]
  · intro n
    refine ⟨("jetskiStateSync.agentManagerInitState Base64 解码失败(len=" : String).toList,
      (")" : String).toList, ?_⟩
    have h1 : jetskiTransportMsg n =
        ("jetskiStateSync.agentManagerInitState Base64 解码失败(len=" ++ toString n) ++ ")" :=
      rfl
    rw [h1]
    simp [String.toList]
  · intro Proto pd input bytes e hblank hdec hpd
    unfold decode_jetski_state_proto
    rw [if_neg (by simp [hblank]), hdec]
    dsimp only
    rw [hpd]

/-- Concrete instantiation of C9: a space is blank; `!!!!` is invalid
base64; `AAAA` decodes to three zero bytes that the parser rejects. -/
theorem c9_witness :
    decode_jetski_state_proto (fun _ => (.error "x" : Except String Nat)) [32] =
      .error jetskiEmptyMsg ∧
    decode_jetski_state_proto (fun _ => (.error "x" : Except String Nat)) [33, 33, 33, 33] =
      .error (jetskiTransportMsg 4) ∧
    decode_jetski_state_proto (fun _ => (.error "x" : Except String Nat)) [65, 65, 65, 65] =
      .error (jetskiSchemaMsg 3) :=
  ⟨c9_decode_jetski_errors.1 Nat _ _ (by decide),
   c9_decode_jetski_errors.2.1 Nat _ _ (by decide) (by decide),
   c9_decode_jetski_errors.2.2.2 Nat _ _ [0, 0, 0] "x" (by decide) (by decide) rfl⟩

/-- C10: `clear_all_backups` deletes exactly the files with extension
`json` — every file kept is a non-`json` original and every non-`json`
original is kept, every `json` file is gone — the operation reports
success, and a missing accounts directory yields success with nothing
cleared. -/
theorem c10_clear_all_backups_exact :
    (clear_all_backups none = (.ok "用户目录不存在，无需清空", none)) ∧
    (∀ files : List String, ∃ msg, (clear_all_backups (some files)).1 = .ok msg) ∧
    (∀ (files : List String) (f : String), f ∈ files → rustExtension f ≠ some "json" →
      ∃ rem, (clear_all_backups (some files)).2 = some rem ∧ f ∈ rem) ∧
    (∀ (files : List String) (rem : List String) (f : String),
      (clear_all_backups (some files)).2 = some rem → f ∈ rem →
      f ∈ files ∧ rustExtension f ≠ some "json") := by
  refine ⟨rfl, fun files => ⟨_, rfl⟩, ?_, ?_⟩
  · intro files f hmem hext
    refine ⟨_, rfl, ?_⟩
    exact List.mem_filter.mpr ⟨hmem, by simp [hext]⟩
  · intro files rem f hrem hf
    have hrem2 : rem = files.filter (fun f => ¬(rustExtension f = some "json")) := by
      simpa [clear_all_backups] using hrem.symm
    subst hrem2
    have := List.mem_filter.mp hf
    exact ⟨this.1, by simpa using this.2⟩

/-- Concrete instantiation of C10: `b.txt` and the ambient `.json`
dot-file survive, while `a.json` is deleted. -/
theorem c10_witness :
    (∃ rem, (clear_all_backups (some ["a.json", "b.txt", ".json"])).2 = some rem ∧
      "b.txt" ∈ rem) ∧
    (clear_all_backups none = (.ok "用户目录不存在，无需清空", none)) :=
  ⟨c10_clear_all_backups_exact.2.2.1 ["a.json", "b.txt", ".json"] "b.txt"
    (by decide) (by decide),
   c10_clear_all_backups_exact.1⟩

theorem lookup_sqlDelete_self (k : String) :
    ∀ st : List (String × String), (sqlDelete k st).lookup k = none := by
  intro st
  induction st with
  | nil => rfl
  | cons kv t ih =>
      obtain ⟨a, b⟩ := kv
      by_cases h : a = k
      · simpa [sqlDelete, List.filter_cons, h] using ih
      · simp only [sqlDelete, List.filter_cons] at ih ⊢
        rw [if_pos (by simp [h])]
        simp only [List.lookup_cons, beq_false_of_ne (fun heq => h heq.symm), cond_false]
        exact ih

theorem lookup_sqlDelete_other {k k2 : String} (h : k2 ≠ k) :
    ∀ st : List (String × String), (sqlDelete k st).lookup k2 = st.lookup k2 := by
  intro st
  induction st with
  | nil => rfl
  | cons kv t ih =>
      obtain ⟨a, b⟩ := kv
      by_cases ha : a = k
      · have hne : k2 ≠ a := fun heq => h (heq.trans ha)
        simp only [sqlDelete, List.filter_cons] at ih ⊢
        rw [if_neg (by simp [ha])]
        rw [ih]
        simp only [List.lookup_cons, beq_false_of_ne hne, cond_false]
      · simp only [sqlDelete, List.filter_cons] at ih ⊢
        rw [if_pos (by simp [ha])]
        by_cases hk2a : k2 = a
        · subst hk2a
          simp only [List.lookup_cons, beq_self_eq_true, cond_true]
        · simp only [List.lookup_cons, beq_false_of_ne hk2a, cond_false]
          exact ih

theorem lookup_sqlUpdate_self (k val : String) :
    ∀ st : List (String × String),
      (sqlUpdate k val st).lookup k = (st.lookup k).map (fun _ => val) := by
  intro st
  induction st with
  | nil => rfl
  | cons kv t ih =>
      obtain ⟨a, b⟩ := kv
      by_cases h : a = k
      · subst h
        simp [sqlUpdate, List.lookup_cons]
      · simp only [sqlUpdate, List.map_cons, if_neg h, List.lookup_cons,
          beq_false_of_ne (fun heq => h heq.symm), cond_false]
        exact ih

theorem lookup_sqlUpdate_other {k k2 : String} (val : String) (h : k2 ≠ k) :
    ∀ st : List (String × String), (sqlUpdate k val st).lookup k2 = st.lookup k2 := by
  intro st
  induction st with
  | nil => rfl
  | cons kv t ih =>
      obtain ⟨a, b⟩ := kv
      by_cases ha : a = k
      · have hne : k2 ≠ a := fun heq => h (heq.trans ha)
        simp only [sqlUpdate, List.map_cons, if_pos ha, List.lookup_cons,
          beq_false_of_ne hne, cond_false]
        exact ih
      · simp only [sqlUpdate, List.map_cons, if_neg ha]
        by_cases hk2a : k2 = a
        · subst hk2a
          simp only [List.lookup_cons, beq_self_eq_true, cond_true]
        · simp only [List.lookup_cons, beq_false_of_ne hk2a, cond_false]
          exact ih

/-- C5 (amended): after `clear_database`, the auth-status, profile-URL
and onboarding keys are absent (a key absent beforehand is tolerated —
the operation still succeeds); the integrity marker holds exactly
`RESET_MARKER_VALUE` whenever a marker row existed beforehand; but when
the marker row was absent beforehand the SQL `UPDATE` affects no rows
and the marker remains absent — it is not created. -/
theorem c5_clear_database_reset :
    ∀ st : List (String × String),
      (clear_database st).2.lookup "antigravityAuthStatus" = none ∧
      (clear_database st).2.lookup "antigravity.profileUrl" = none ∧
      (clear_database st).2.lookup "antigravityOnboarding" = none ∧
      (∀ v, st.lookup MARKER_KEY = some v →
        (clear_database st).2.lookup MARKER_KEY = some RESET_MARKER_VALUE) ∧
      (st.lookup MARKER_KEY = none →
        (clear_database st).2.lookup MARKER_KEY = none) := by
  intro st
  have hsnd : (clear_database st).2 = clearedStore st := rfl
  refine ⟨?_, ?_, ?_, ?_, ?_⟩
  · rw [hsnd]
    unfold clearedStore
    rw [lookup_sqlUpdate_other _ (by decide),
      lookup_sqlDelete_other (by decide),
      lookup_sqlDelete_other (by decide),
      lookup_sqlDelete_self]
  · rw [hsnd]
    unfold clearedStore
    rw [lookup_sqlUpdate_other _ (by decide),
      lookup_sqlDelete_other (by decide),
      lookup_sqlDelete_self]
  · rw [hsnd]
    unfold clearedStore
    rw [lookup_sqlUpdate_other _ (by decide),
      lookup_sqlDelete_self]
  · intro v hv
    rw [hsnd]
    unfold clearedStore
    rw [lookup_sqlUpdate_self,
      lookup_sqlDelete_other (by decide),
      lookup_sqlDelete_other (by decide),
      lookup_sqlDelete_other (by decide), hv]
    rfl
  · intro hnone
    rw [hsnd]
    unfold clearedStore
    rw [lookup_sqlUpdate_self,
      lookup_sqlDelete_other (by decide),
      lookup_sqlDelete_other (by decide),
      lookup_sqlDelete_other (by decide), hnone]
    rfl

/-- C5 counterexample: on a store that has no integrity-marker row (here
one auth row and one unrelated row), `clear_database` leaves the marker
absent — it does NOT hold the fixed logged-out reference value, contrary
to the claim's "including in the case where the marker key was absent
beforehand". -/
theorem c5_counterexample :
    (clear_database [("antigravityAuthStatus", "tok"), ("colorThemeData", "x")]).2.lookup
        MARKER_KEY = none ∧
    ¬((clear_database [("antigravityAuthStatus", "tok"), ("colorThemeData", "x")]).2.lookup
        MARKER_KEY = some RESET_MARKER_VALUE) := by
  constructor
  · rfl
  · intro h
    rw [(rfl : (clear_database
      [("antigravityAuthStatus", "tok"), ("colorThemeData", "x")]).2.lookup MARKER_KEY
        = none)] at h
    exact Option.noConfusion h

/-- Concrete instantiation of the amended C5 on a store that carries a
marker row and an auth row. -/
theorem c5_witness :
    (clear_database [(MARKER_KEY, "old"), ("antigravityAuthStatus", "tok")]).2.lookup
        "antigravityAuthStatus" = none ∧
    (clear_database [(MARKER_KEY, "old"), ("antigravityAuthStatus", "tok")]).2.lookup
        MARKER_KEY = some RESET_MARKER_VALUE :=
  ⟨(c5_clear_database_reset [(MARKER_KEY, "old"), ("antigravityAuthStatus", "tok")]).1,
   (c5_clear_database_reset [(MARKER_KEY, "old"), ("antigravityAuthStatus", "tok")]).2.2.2.1
     "old" rfl⟩

/-- C2: the switch outcome is determined by the two booleans — with a
live connection the store is cleared, the target restored and the reload
broadcast to every connection, the success message naming the connection
count; with no connection and a running host it fails without touching
the store; with no connection and no running host the store is cleared
and restored and a launch attempted, and a failed launch yields a result
whose message still reports that the account data was restored (the
restore/launch effects having run), not a blanket failure. -/
theorem c2_switch_branches :
    (∀ (env : SwitchEnv) (name s1 s2 : String),
      env.hasExtension = true →
      env.clearResult = .ok s1 → env.restoreResult = .ok s2 →
      switch env name =
        (.ok ("账户已切换到 " ++ name ++ "，正在重载 " ++
            toString env.clientCount ++ " 个 VSCode 窗口"),
         [.clearData, .restoreAccount name, .broadcastReload])) ∧
    (∀ (env : SwitchEnv) (name : String),
      env.hasExtension = false → env.isRunning = true →
      switch env name = (.error SWITCH_NEED_EXT_MSG, [])) ∧
    (∀ (env : SwitchEnv) (name ks s1 s2 e : String),
      env.hasExtension = false → env.isRunning = false →
      env.killResult = .ok ks →
      env.clearResult = .ok s1 → env.restoreResult = .ok s2 →
      env.startResult = .error e →
      switch env name =
        (.error ("账户数据已恢复，但启动 Antigravity 失败: " ++ e),
         [.killHost, .clearData, .restoreAccount name, .launchHost])) ∧
    (∀ (env : SwitchEnv) (name ks s1 s2 s3 : String),
      env.hasExtension = false → env.isRunning = false →
      env.killResult = .ok ks →
      env.clearResult = .ok s1 → env.restoreResult = .ok s2 →
      env.startResult = .ok s3 →
      switch env name =
        (.ok ("账户已切换到 " ++ name ++ "，已启动 Antigravity"),
         [.killHost, .clearData, .restoreAccount name, .launchHost])) := by
  refine ⟨?_, ?_, ?_, ?_⟩
  · intro env name s1 s2 hext hclear hrestore
    obtain ⟨ext, run, cnt, kr, cr, rr, sr⟩ := env
    simp only at hext hclear hrestore
    subst hext hclear hrestore
    rfl
  · intro env name hext hrun
    obtain ⟨ext, run, cnt, kr, cr, rr, sr⟩ := env
    simp only at hext hrun
    subst hext hrun
    rfl
  · intro env name ks s1 s2 e hext hrun hkill hclear hrestore hstart
    obtain ⟨ext, run, cnt, kr, cr, rr, sr⟩ := env
    simp only at hext hrun hkill hclear hrestore hstart
    subst hext hrun hkill hclear hrestore hstart
    rfl
  · intro env name ks s1 s2 s3 hext hrun hkill hclear hrestore hstart
    obtain ⟨ext, run, cnt, kr, cr, rr, sr⟩ := env
    simp only at hext hrun hkill hclear hrestore hstart
    subst hext hrun hkill hclear hrestore hstart
    rfl

/-- Concrete instantiation of C2: each branch at a concrete environment. -/
theorem c2_witness :
    switch ⟨true, true, 2, .ok "", .ok "c", .ok "r", .ok "s"⟩ "a@b" =
      (.ok "账户已切换到 a@b，正在重载 2 个 VSCode 窗口",
       [.clearData, .restoreAccount "a@b", .broadcastReload]) ∧
    switch ⟨false, true, 0, .ok "", .ok "c", .ok "r", .ok "s"⟩ "a@b" =
      (.error SWITCH_NEED_EXT_MSG, []) ∧
    switch ⟨false, false, 0, .ok "", .ok "c", .ok "r", .error "boom"⟩ "a@b" =
      (.error "账户数据已恢复，但启动 Antigravity 失败: boom",
       [.killHost, .clearData, .restoreAccount "a@b", .launchHost]) :=
  ⟨c2_switch_branches.1 _ "a@b" "c" "r" rfl rfl rfl,
   c2_switch_branches.2.1 _ "a@b" rfl rfl,
   c2_switch_branches.2.2.1 _ "a@b" "" "c" "r" "boom" rfl rfl rfl rfl rfl rfl⟩

/-- C8 counterexample: saving `[1, 2]` over a target holding `[0]` via
`backup_current`'s plain `fs::write` can be observed mid-write holding
`[1]` — neither the previous content nor the complete new content, i.e.
a half-written file — and the step sequence is a single direct write,
not a write-to-temp-then-rename. -/
theorem c8_counterexample :
    some [1] ∈ observables (some [0]) none (backupCurrentWriteSteps [1, 2]) ∧
    some [1] ≠ some [0] ∧ some [1] ≠ some ([1, 2] : List Nat) ∧
    backupCurrentWriteSteps [1, 2] = [.directWrite [1, 2]] ∧
    WriteStep.renameTempToTarget ∉ backupCurrentWriteSteps [1, 2] := by
  refine ⟨?_, by decide, by decide, rfl, by decide⟩
  decide

/-- C8 (amended): each file written by the batch restore goes through
write-to-temp-then-rename, so every observable target state during such
a save is the previous content, absent (inside the explicit
remove-then-rename replacement window), or the complete new content —
never a partial file; `backup_current`, by contrast, performs a single
direct `fs::write` of the serialized record with no temp or rename
step. -/
theorem c8_restore_atomic_backup_direct :
    (∀ (tex : Bool) (prev c : List Nat) (st : Option (List Nat)),
      st ∈ observables (some prev) none (restoreWriteSteps tex c) →
      st = some prev ∨ st = none ∨ st = some c) ∧
    (∀ c : List Nat, backupCurrentWriteSteps c = [.directWrite c] ∧
      WriteStep.renameTempToTarget ∉ backupCurrentWriteSteps c ∧
      WriteStep.writeTemp c ∉ backupCurrentWriteSteps c) := by
  constructor
  · intro tex prev c st hst
    cases tex <;>
      simp only [restoreWriteSteps, observables, if_true, if_false, List.cons_append,
        List.nil_append, List.mem_cons, List.not_mem_nil, or_false, Option.getD] at hst <;>
      rcases hst with h | h | h | h <;> simp_all
  · intro c
    refine ⟨rfl, by simp [backupCurrentWriteSteps], by simp [backupCurrentWriteSteps]⟩

/-- Concrete instantiation of the amended C8: during a restore save over
an existing file, the absent state is observable but no partial one. -/
theorem c8_witness :
    ((none : Option (List Nat)) = some [0] ∨ (none : Option (List Nat)) = none ∨
      (none : Option (List Nat)) = some [1, 2]) ∧
    backupCurrentWriteSteps [7] = [.directWrite [7]] :=
  ⟨c8_restore_atomic_backup_direct.1 true [0] [1, 2] none (by decide),
   (c8_restore_atomic_backup_direct.2 [7]).1⟩

/-- C3 counterexample: with one unreadable backup file `a.json` and one
perfectly good file `b.json` in the directory, `get_all` — the
account-listing operation — aborts with an error instead of returning
`b.json`'s record; a single bad file fails the whole listing, contrary
to the claim. (`collect_account_contents`, by contrast, skips `a.json`
with a warning and still returns `b.json`.) -/
theorem c3_counterexample :
    get_all c3pj c3gj c3dp
      [⟨"a.json", 10, .error "io", 5⟩, ⟨"b.json", 10, .ok "good", 3⟩] =
      .error "读取文件失败 a: io" ∧
    collect_account_contents c3pj
      [⟨"a.json", 10, .error "io", 5⟩, ⟨"b.json", 10, .ok "good", 3⟩] =
      ([("b.json", 1)], ["a.json"]) :=
  ⟨rfl, rfl⟩

/-- C3 (amended): the export-collection operation
`collect_account_contents` never aborts — its result is exactly the
per-entry classification run over the whole directory, so every
collectable file is returned no matter how many others are oversized,
unreadable or unparseable, and each warned skip is reported per file;
but the account listing `get_all` aborts the whole listing with the
first bad `json` file's error (shown here for an unreadable head
entry). -/
theorem c3_collect_skips_but_get_all_aborts :
    (∀ (Json : Type) (pj : String → Except String Json) (entries : List DirEntry),
      collect_account_contents pj entries =
        (entries.filterMap (fun e => (classifyEntry pj e).bind id),
         (entries.filter (classifyWarn pj)).map DirEntry.name)) ∧
    (∀ (Json : Type) (pj : String → Except String Json) (gj : Json → Option String)
        (dp : String → Except String Json) (e : DirEntry) (rest : List DirEntry)
        (err : String),
      rustExtension e.name = some "json" → e.read = .error err →
      get_all pj gj dp (e :: rest) =
        .error ("读取文件失败 " ++ stripLastExt e.name ++ ": " ++ err)) := by
  constructor
  · intro Json pj entries
    induction entries with
    | nil => rfl
    | cons e rest ih =>
        simp only [collect_account_contents, collectAux] at ih ⊢
        rw [ih]
        cases hc : classifyEntry pj e with
        | none => simp [hc, classifyWarn, List.filterMap_cons, List.filter_cons]
        | some o =>
            cases o with
            | none => simp [hc, classifyWarn, List.filterMap_cons, List.filter_cons]
            | some kv => simp [hc, classifyWarn, List.filterMap_cons, List.filter_cons]
  · intro Json pj gj dp e rest err hext hread
    unfold get_all getAllAux
    rw [if_pos hext, hread]
    rfl

/-- Concrete instantiation of the amended C3: the classification
equality on the two-file directory, and `get_all`'s abort on the
unreadable head file. -/
theorem c3_witness :
    collect_account_contents c3pj
      [⟨"a.json", 10, .error "io", 5⟩, ⟨"b.json", 10, .ok "good", 3⟩] =
      ([⟨"a.json", 10, .error "io", 5⟩, ⟨"b.json", 10, .ok "good", 3⟩].filterMap
          (fun e => (classifyEntry c3pj e).bind id),
       ([⟨"a.json", 10, .error "io", 5⟩, ⟨"b.json", 10, .ok "good", 3⟩].filter
          (classifyWarn c3pj)).map DirEntry.name) ∧
    get_all c3pj c3gj c3dp [⟨"a.json", 10, .error "io", 5⟩] =
      .error ("读取文件失败 " ++ stripLastExt "a.json" ++ ": " ++ "io") :=
  ⟨c3_collect_skips_but_get_all_aborts.1 Nat c3pj _,
   c3_collect_skips_but_get_all_aborts.2 Nat c3pj c3gj c3dp
     ⟨"a.json", 10, .error "io", 5⟩ [] "io" (by decide) rfl⟩

end AGA
